import Mathlib

/-!
Verification of the PapzinCrew music-streaming backend's ingestion and
consistency pipeline: audio validation, duplicate detection, tiered
(B2-remote / local) storage writing, and orphan reconciliation.

The Python sources are shallowly embedded: strings are `List Char`,
bytes are `List Nat`, Python floats are modelled as exact rationals,
and external libraries (hashlib, difflib, mutagen, boto3/b2sdk, the
filesystem and the SQL database) are abstract parameters supplied
through explicit environment records.  All repository functions are
translated directly from the Python of
`backend/app/routers/uploads.py`, `backend/app/services/b2_storage.py`
and `backend/app/services/orphan_cleanup.py`.
-/

namespace PapzinCrew

/-- Python strings are modelled as lists of characters. -/
abbrev Str := List Char

/-- Byte strings are modelled as lists of naturals (each < 256 in practice;
the bound is irrelevant to the claims). -/
abbrev Bytes := List Nat

/-- Whitespace characters recognised by Python's `\s` regex class and
`str.strip()` (the Unicode whitespace code points). -/
def pySpaceChars : Str :=
  [' ', '\x09', '\x0a', '\x0b', '\x0c', '\x0d',
   '\x1c', '\x1d', '\x1e', '\x1f', '\x85', '\xa0',
   '\u1680', '\u2000', '\u2001', '\u2002', '\u2003', '\u2004', '\u2005',
   '\u2006', '\u2007', '\u2008', '\u2009', '\u200a', '\u2028', '\u2029',
   '\u202f', '\u205f', '\u3000']

/-- Test for Python whitespace. -/
def isPySpace (c : Char) : Bool := pySpaceChars.contains c

/-- ASCII alphanumeric test, the `[a-zA-Z0-9]` regex class. -/
def isAsciiAlnum (c : Char) : Bool :=
  (97 ≤ c.toNat && c.toNat ≤ 122) ||
  (65 ≤ c.toNat && c.toNat ≤ 90) ||
  (48 ≤ c.toNat && c.toNat ≤ 57)

/-- Lowercase-or-digit test (the character class of fully normalized text). -/
def isLowerAlnum (c : Char) : Bool :=
  (97 ≤ c.toNat && c.toNat ≤ 122) || (48 ≤ c.toNat && c.toNat ≤ 57)

/-- Python `str.lower()` restricted to the ASCII range (the only range
reachable after normalization filters the input); identical to core
`Char.toLower`. -/
def pyLower (c : Char) : Char := Char.toLower c

/-- Model of `re.sub(p+, r, s)`: every maximal run of characters
satisfying `p` is replaced by the single character `r`.  The boolean
argument records whether the previous character belonged to a run. -/
def collapseRuns (p : Char → Bool) (r : Char) : Bool → Str → Str
  | _, [] => []
  | prev, c :: cs =>
    if p c then
      if prev then collapseRuns p r true cs
      else r :: collapseRuns p r true cs
    else c :: collapseRuns p r false cs

/-- Model of Python `str.strip(chars)`: drop characters satisfying `p`
from both ends. -/
def stripEnds (p : Char → Bool) (s : Str) : Str :=
  ((s.dropWhile p).reverse.dropWhile p).reverse

/-- The character class kept by the first substitution of
`normalize_string`: the complement of `[^a-zA-Z0-9\s]`. -/
def keepAlnumSpace (c : Char) : Bool := isAsciiAlnum c || isPySpace c

/-- Translation of `normalize_string` (uploads.py, lines 385–395):
`re.sub(r'[^a-zA-Z0-9\s]', '', s)` then `re.sub(r'\s+', ' ', …)` then
`.strip().lower()`; the empty string is returned unchanged. -/
def normalize_string (s : Str) : Str :=
  if s = [] then []
  else
    (stripEnds isPySpace
      (collapseRuns isPySpace ' ' false (s.filter keepAlnumSpace))).map pyLower

/-- Python `abs` on a rational. -/
def pyAbs (q : ℚ) : ℚ := if q < 0 then -q else q

/-- Python `max(a, b)` on rationals. -/
def pyMax (a b : ℚ) : ℚ := if a < b then b else a

/-- Python truthiness of an optional string (`None` and `""` are falsy). -/
def pyTruthy : Option Str → Bool
  | none => false
  | some s => !s.isEmpty

/-- Round-half-to-even to the nearest integer, the rounding mode of
Python's built-in `round`. -/
def roundHalfEven (x : ℚ) : ℤ :=
  let n := ⌊x⌋
  let frac := x - (n : ℚ)
  if frac < 1/2 then n
  else if 1/2 < frac then n + 1
  else if n % 2 = 0 then n else n + 1

/-- Python `round(x, 3)` modelled exactly over the rationals. -/
def pyRound3 (q : ℚ) : ℚ := (roundHalfEven (1000 * q) : ℚ) / 1000

/-- Translation of `sanitize_filename` (uploads.py, lines 366–368):
`re.sub(r'[\\/*?:"<>|]', "", filename)`. -/
def sanitize_filename (filename : Str) : Str :=
  filename.filter (fun c => !(['\\', '/', '*', '?', ':', '"', '<', '>', '|'].contains c))

/-- Translation of `calculate_similarity` (uploads.py, lines 376–383).
`ratio` abstracts `difflib.SequenceMatcher(None, a, b).ratio()`, an
external standard-library function; the guard and the
`.lower().strip()` preprocessing are the repository's code. -/
def calculate_similarity (ratio : Str → Str → ℚ) (str1 str2 : Str) : ℚ :=
  if str1 = [] ∨ str2 = [] then 0
  else ratio (stripEnds isPySpace (str1.map pyLower)) (stripEnds isPySpace (str2.map pyLower))

/-- A catalog record, the fields of `models.Mix` that the ingestion and
reconciliation pipeline reads.  `models.Mix` declares no `file_hash`
column (models/models.py, lines 47–79), so the field below records the
value SQLAlchemy would surface if it existed; it is `none` on every
record the application creates. -/
structure MixRec where
  id : Nat
  title : Str
  artist_name : Str
  album : Option Str
  duration_seconds : ℚ
  file_size_mb : ℚ
  file_path : Str
  file_hash : Option Str
deriving DecidableEq, Repr

/-- Whether the SQLAlchemy model class `models.Mix` exposes a
`file_hash` attribute: `hasattr(models.Mix, "file_hash")` in
`check_for_duplicate_track` (uploads.py, line 645).  The class declares
no such column, and the migration that was meant to add it
(`e312814c0f21_add_file_hash_column_…`) has an empty `upgrade`, so this
is `false`. -/
def mix_model_has_file_hash : Bool := false

/-- The `match_type` tag of a duplicate record ("exact_file" /
"metadata" strings in the Python dict). -/
inductive MatchType where
  | exact_file
  | metadata
deriving DecidableEq, Repr

/-- The fields of the duplicate-info dict that the pipeline's control
flow and the claims read (the remaining dict entries are display-only
diagnostics). -/
structure DupMatch where
  id : Nat
  match_type : MatchType
  confidence : ℚ
deriving DecidableEq, Repr

/-- The duration-similarity decay (uploads.py, lines 693–696): within a
5-second window the score decays linearly from 1 to 0; beyond it the
score is 0. -/
def duration_decay (diff : ℚ) : ℚ :=
  if diff ≤ 5 then 1 - diff / 5 else 0

/-- The size-similarity decay (uploads.py, lines 712–714) as a function
of the relative size difference: within a 10% window the score decays
linearly from 1; beyond it the score is 0. -/
def size_decay (pct : ℚ) : ℚ :=
  if pct ≤ 1/10 then 1 - pct else 0

/-- The duration term of the weighted comparison (uploads.py, lines
690–698): computed only when both durations are present and non-zero
(Python truthiness of `duration_seconds and track.duration_seconds`). -/
def duration_similarity (dur? : Option ℚ) (track_dur : ℚ) : ℚ :=
  match dur? with
  | none => 0
  | some d => if d ≠ 0 ∧ track_dur ≠ 0 then duration_decay (pyAbs (d - track_dur)) else 0

/-- The size term of the weighted comparison (uploads.py, lines
708–716): computed only when `track.file_size_mb` is truthy. -/
def size_similarity (track_mb file_size_mb : ℚ) : ℚ :=
  if track_mb ≠ 0 then
    size_decay (pyAbs (track_mb - file_size_mb) / pyMax track_mb file_size_mb)
  else 0

/-- The album term (uploads.py, lines 700–706): computed only when the
normalized input album is non-empty and the track's album is truthy. -/
def album_similarity (ratio : Str → Str → ℚ) (norm_album : Str) (track_album : Option Str) : ℚ :=
  if norm_album ≠ [] ∧ pyTruthy track_album then
    calculate_similarity ratio norm_album (normalize_string (track_album.getD []))
  else 0

/-- The per-candidate `confidence_factors` list (uploads.py, lines
674–716): pairs of a per-field similarity score with its fixed weight. -/
def confidence_factors (ratio : Str → Str → ℚ) (norm_title norm_artist norm_album : Str)
    (file_size : ℚ) (dur? : Option ℚ) (track : MixRec) : List (ℚ × ℚ) :=
  [(calculate_similarity ratio norm_title (normalize_string track.title), 0.4),
   (calculate_similarity ratio norm_artist (normalize_string track.artist_name), 0.3),
   (duration_similarity dur? track.duration_seconds, 0.15),
   (album_similarity ratio norm_album track.album, 0.1),
   (size_similarity track.file_size_mb (file_size / (1024 * 1024)), 0.05)]

/-- The weighted confidence score of one candidate (uploads.py, line
719): `sum(score * weight for score, weight in confidence_factors)`. -/
def weighted_confidence (ratio : Str → Str → ℚ) (norm_title norm_artist norm_album : Str)
    (file_size : ℚ) (dur? : Option ℚ) (track : MixRec) : ℚ :=
  ((confidence_factors ratio norm_title norm_artist norm_album file_size dur? track).map
    (fun p => p.1 * p.2)).sum

/-- One step of the best-match fold (uploads.py, lines 721–741): a
candidate replaces the current best only when its score strictly
exceeds the running best confidence and meets the 0.70 threshold; the
reported confidence is rounded to three decimals. -/
def best_match_step (ratio : Str → Str → ℚ) (norm_title norm_artist norm_album : Str)
    (file_size : ℚ) (dur? : Option ℚ) (acc : Option DupMatch × ℚ) (track : MixRec) :
    Option DupMatch × ℚ :=
  let total := weighted_confidence ratio norm_title norm_artist norm_album file_size dur? track
  if total > acc.2 ∧ total ≥ 0.7 then
    (some ⟨track.id, MatchType.metadata, pyRound3 total⟩, total)
  else acc

/-- The normalized album of the submission (uploads.py, line 672):
`normalize_string(album) if album else ""`. -/
def norm_album_of : Option Str → Str
  | some a => normalize_string a
  | none => []

/-- Translation of `check_for_duplicate_track` (uploads.py, lines
631–743).  Method 1 (exact content-hash lookup) runs only when a hash
was supplied (Python truthiness) and the `models.Mix` class exposes a
`file_hash` attribute; `has_attr` is that `hasattr` value.  Method 2
scans every catalog record and keeps the best candidate at or above
the 0.70 threshold. -/
def check_for_duplicate_track (ratio : Str → Str → ℚ) (has_attr : Bool) (db : List MixRec)
    (title artist_name : Str) (file_size : ℚ) (file_hash : Option Str)
    (dur? : Option ℚ) (album : Option Str) : Option DupMatch :=
  let exact :=
    if pyTruthy file_hash ∧ has_attr then
      match db.find? (fun t => t.file_hash == file_hash) with
      | some t => some (⟨t.id, MatchType.exact_file, 1⟩ : DupMatch)
      | none => none
    else none
  match exact with
  | some m => some m
  | none =>
    (db.foldl
      (best_match_step ratio (normalize_string title) (normalize_string artist_name)
        (norm_album_of album) file_size dur?)
      (none, 0)).1

/-! ### Validator (uploads.py, lines 230–364) -/

/-- Error codes of `validate_audio_file` (the `error_code` strings of the
Python result dict). -/
inductive ErrCode where
  | file_read_error
  | file_too_large
  | unsupported_file_extension
  | invalid_audio_file
  | file_validation_error
deriving DecidableEq, Repr

/-- Result of `validate_audio_file`: the `(is_valid, result_dict)` pair. -/
inductive ValidationResult where
  | valid (mime_type : Str) (file_extension : Str) (file_size_bytes : Nat)
  | invalid (error_code : ErrCode)
deriving DecidableEq, Repr

/-- `MAX_FILE_SIZE_MB = 100` (uploads.py, line 213). -/
def MAX_FILE_SIZE_MB : Nat := 100

/-- The basename of a POSIX path: the part after the last slash
(`os.path.basename`). -/
def pathBasename (s : Str) : Str :=
  (s.reverse.takeWhile (fun c => c ≠ '/')).reverse

/-- The extension of a basename under `os.path.splitext` rules: the
suffix starting at the last dot, except that the leading dots of the
basename never begin an extension. -/
def extOfBasename (b : Str) : Str :=
  let k := (b.takeWhile (fun c => c = '.')).length
  let rest := b.drop k
  let afterLastDot := (rest.reverse.takeWhile (fun c => c ≠ '.')).reverse
  if afterLastDot.length = rest.length then []
  else '.' :: afterLastDot

/-- `os.path.splitext` on a POSIX path: `(root, extension)`. -/
def pySplitext (p : Str) : Str × Str :=
  let e := extOfBasename (pathBasename p)
  (p.take (p.length - e.length), e)

/-- The allow-listed audio extensions (uploads.py, line 265). -/
def allowed_extensions : List Str :=
  [".mp3".toList, ".wav".toList, ".aiff".toList, ".flac".toList,
   ".m4a".toList, ".ogg".toList, ".wma".toList]

/-- The extension → MIME-type table (uploads.py, lines 268–276), with the
`application/octet-stream` fallback of `.get` (line 287). -/
def extension_to_mime (ext : Str) : Str :=
  if ext = ".mp3".toList then "audio/mpeg".toList
  else if ext = ".wav".toList then "audio/wav".toList
  else if ext = ".aiff".toList then "audio/aiff".toList
  else if ext = ".flac".toList then "audio/flac".toList
  else if ext = ".m4a".toList then "audio/mp4".toList
  else if ext = ".ogg".toList then "audio/ogg".toList
  else if ext = ".wma".toList then "audio/x-ms-wma".toList
  else "application/octet-stream".toList

/-- Translation of `validate_audio_file` (uploads.py, lines 230–364).
`decode_mem` and `decode_temp` abstract the two mutagen parse attempts
(in-memory `mutagen.File(BytesIO(...))` and the temp-file fallback);
`true` means the library produced a non-`None` parse.  The in-memory
read itself is modelled as always succeeding (the byte stream is the
`content` argument), so the `file_read_error` branches are
unreachable here.  Size is checked only against the 100 MB maximum;
there is no emptiness check.  In lightweight mode the function returns
immediately after the size and extension checks. -/
def validate_audio_file (decode_mem decode_temp : Bytes → Bool)
    (content : Bytes) (filename : Str) (lightweight : Bool) : ValidationResult :=
  let file_size := content.length
  if file_size > MAX_FILE_SIZE_MB * 1024 * 1024 then .invalid .file_too_large
  else
    let extension := (pySplitext (filename.map pyLower)).2
    if !(allowed_extensions.contains extension) then .invalid .unsupported_file_extension
    else
      let detected_mime := extension_to_mime extension
      if lightweight then .valid detected_mime extension file_size
      else if decode_mem content then .valid detected_mime extension file_size
      else if decode_temp content then .valid detected_mime extension file_size
      else .invalid .invalid_audio_file

/-! ### Local-tier filename generation (uploads.py, lines 397–435) -/

/-- POSIX `os.path.join` of two components. -/
def pathJoin (a b : Str) : Str :=
  if b.head? = some '/' then b
  else if a = [] then b
  else if a.getLast? = some '/' then a ++ b
  else a ++ '/' :: b

/-- The public-URL spelling of the upload directory (uploads.py, line
410): `"/" + directory.replace("\\", "/").strip("/\\")`. -/
def public_dir_of (directory : Str) : Str :=
  '/' :: stripEnds (fun c => c = '/' || c = '\\')
    (directory.map (fun c => if c = '\\' then '/' else c))

/-- The `while True` loop of `get_unique_filepath` (uploads.py, lines
412–433).  The loop increments `counter` once per iteration and breaks
as soon as `counter > 1000`, so it performs at most 1000 iterations;
the `fuel` argument is that bound and never runs out when the loop is
entered with `counter = 1` and `fuel = 1000`.  On the break path the
just-generated candidate is returned without being checked. -/
def get_unique_filepath_loop (db_has disk : Str → Bool) (directory base_name extension : Str) :
    Nat → Str → Nat → Str
  | 0, new_filename, _ => new_filename
  | fuel + 1, new_filename, counter =>
    let file_path := pathJoin directory new_filename
    let public_url_path := public_dir_of directory ++ '/' :: new_filename
    let exists_on_disk := disk file_path
    let exists_in_db := db_has file_path || db_has public_url_path
    if !exists_on_disk && !exists_in_db then new_filename
    else
      let nf := base_name ++ '_' :: ((Nat.repr counter).data ++ extension)
      if counter + 1 > 1000 then nf
      else get_unique_filepath_loop db_has disk directory base_name extension fuel nf (counter + 1)

/-- Translation of `get_unique_filepath` (uploads.py, lines 397–435).
`disk` abstracts `os.path.exists`; `db_has` abstracts the query for a
`Mix` row whose `file_path` equals the given string. -/
def get_unique_filepath (db_has disk : Str → Bool) (directory filename : Str) : Str :=
  let p := pySplitext filename
  get_unique_filepath_loop db_has disk directory p.1 p.2 1000 filename 1

/-! ### B2 storage service (services/b2_storage.py) -/

/-- The operating mode determined by the `B2Storage` constructor
(b2_storage.py, lines 45–80): native B2 SDK, S3-compatible, or
disabled. -/
inductive B2Mode where
  | disabled
  | native
  | s3
deriving DecidableEq, Repr

/-- Structured failure classes of `put_bytes_safe` (b2_storage.py,
lines 110–164); S3 client errors arrive already mapped through
`_map_client_error`. -/
inductive PutErrCode where
  | not_configured
  | sdk_missing
  | client_error
  | auth_error
  | bucket_not_found
  | timeout
  | rate_limited
  | network_error
  | boto_error
  | unknown_error
deriving DecidableEq, Repr

/-- The state of the `B2Storage` wrapper plus the outcome of the single
put/delete attempts the environment will answer (network behaviour is
external).  `put_failure = none` means the underlying put succeeds;
`delete_ok` is the outcome of `s3.delete_object` with the `NoSuchKey`
case already folded to `true` (idempotent delete). -/
structure B2Env where
  mode : B2Mode
  endpoint_url : Str
  bucket : Str
  bucket_name_native : Str
  put_failure : Option PutErrCode
  delete_ok : Bool

/-- `B2Storage.is_configured` (b2_storage.py, lines 100–101):
`self.enabled`, which is set exactly when a non-disabled mode was
selected. -/
def is_configured (e : B2Env) : Bool :=
  match e.mode with
  | .disabled => false
  | _ => true

/-- `B2Storage._generate_public_url` (b2_storage.py, lines 214–226) for
native mode. -/
def generate_public_url (e : B2Env) (key : Str) : Str :=
  let bkt := if e.bucket_name_native ≠ [] then e.bucket_name_native else e.bucket
  if e.endpoint_url ≠ [] then e.endpoint_url ++ '/' :: (bkt ++ '/' :: key)
  else ("https://example-b2/".toList) ++ bkt ++ '/' :: key

/-- Result of `put_bytes_safe`: the `{ok, url, key}` or
`{ok: False, error_code}` dict. -/
inductive PutResult where
  | ok (url key : Str)
  | err (code : PutErrCode)
deriving DecidableEq

/-- Translation of `B2Storage.put_bytes_safe` (b2_storage.py, lines
110–164): not-configured short-circuits; otherwise the single upload
attempt either succeeds with a public URL (native mode builds it with
`_generate_public_url`, S3 mode with `endpoint/bucket/key`) or returns
the structured failure class supplied by the environment. -/
def put_bytes_safe (e : B2Env) (key : Str) : PutResult :=
  match e.mode with
  | .disabled => .err .not_configured
  | .native =>
    match e.put_failure with
    | some c => .err c
    | none => .ok (generate_public_url e key) key
  | .s3 =>
    match e.put_failure with
    | some c => .err c
    | none => .ok (e.endpoint_url ++ '/' :: (e.bucket ++ '/' :: key)) key

/-- Translation of `B2Storage.delete_file` (b2_storage.py, lines
191–206): returns `False` when disabled or when `self.s3 is None`
(which is the case in native mode); otherwise the delete outcome. -/
def delete_file (e : B2Env) (_key : Str) : Bool :=
  if is_configured e && !(e.mode == B2Mode.native) then e.delete_ok else false

/-- Translation of `B2Storage.extract_key_from_url` (b2_storage.py,
lines 277–290). -/
def extract_key_from_url (e : B2Env) (url : Str) : Option Str :=
  if url = [] || !is_configured e then none
  else
    let pre := e.endpoint_url ++ '/' :: (e.bucket ++ ['/'])
    if pre.isPrefixOf url then some (url.drop pre.length) else none

/-! ### Orphan reconciliation (services/orphan_cleanup.py) -/

/-- The `replace('\\', '/').strip()` normalization of a stored path
(orphan_cleanup.py, line 16). -/
def norm_stored_path (file_path : Str) : Str :=
  stripEnds isPySpace (file_path.map (fun c => if c = '\\' then '/' else c))

/-- The ordered candidate list of `resolve_local_path`
(orphan_cleanup.py, lines 20–36): the stored value verbatim, the value
with the `/uploads/` public prefix stripped and rejoined under the
local root, likewise for a bare `uploads/` prefix, and the bare
basename under the local root. -/
def resolve_candidates (file_path upload_dir : Str) : List Str :=
  let norm_path := norm_stored_path file_path
  [file_path]
  ++ (if ("/uploads/".toList).isPrefixOf norm_path
      then [pathJoin upload_dir (norm_path.drop 9)] else [])
  ++ (if ("uploads/".toList).isPrefixOf norm_path
      then [pathJoin upload_dir (norm_path.drop 8)] else [])
  ++ [pathJoin upload_dir (pathBasename norm_path)]

/-- Translation of `resolve_local_path` (orphan_cleanup.py, lines
11–43).  `fs_exists` abstracts `os.path.exists`; the final
`os.path.abspath` normalization is environment-dependent and is
modelled as the identity, so the function returns the first existing
candidate itself. -/
def resolve_local_path (fs_exists : Str → Bool) (file_path upload_dir : Str) : Option Str :=
  if norm_stored_path file_path = [] then none
  else (resolve_candidates file_path upload_dir).find? (fun c => !c.isEmpty && fs_exists c)

/-- The remote-URL test of `find_orphaned_tracks` (orphan_cleanup.py,
line 65). -/
def is_remote_url (s : Str) : Bool :=
  ("http://".toList).isPrefixOf s || ("https://".toList).isPrefixOf s

/-- Translation of `find_orphaned_tracks` (orphan_cleanup.py, lines
46–77): a record is orphaned when its stripped `file_path` is
non-empty, not a remote URL, and no candidate local path resolves. -/
def find_orphaned_tracks (fs_exists : Str → Bool) (db : List MixRec) (upload_dir : Str) :
    List MixRec :=
  db.filter (fun mix =>
    let file_path := stripEnds isPySpace mix.file_path
    if file_path = [] || is_remote_url file_path then false
    else (resolve_local_path fs_exists file_path upload_dir).isNone)

/-! ### Ingestion orchestrator: `upload_mix` (uploads.py, lines 804–1270)

Cover-art handling (lines 930–985) is elided: it delegates to external
collaborators, never writes audio bytes, and all its failures are
swallowed, so it is storage-neutral for every property below. -/

/-- Storage tier label (`storage_provider` in the source: `"b2"` or
`"local_filesystem"`). -/
inductive StorageProvider where
  | b2
  | local_filesystem
deriving DecidableEq, Repr

/-- Which tiers hold the newly written audio bytes of the current
submission at a given point of the request. -/
structure StorageState where
  remoteHolds : Bool
  localHolds : Bool
deriving DecidableEq, Repr

/-- Outcome of the `crud.create_mix` commit. -/
inductive InsertResult where
  | ok
  | integrity_error
  | other_error
deriving DecidableEq, Repr

/-- The environment of one `upload_mix` request: catalog snapshot,
filesystem, B2 state, and the external libraries (mutagen, difflib,
hashlib) plus nondeterministic outcomes (timeouts, DB commit). -/
structure UploadEnv where
  b2 : B2Env
  put_timeout : Bool
  timeout_bg_write : Bool
  db : List MixRec
  next_id : Nat
  disk : Str → Bool
  decode_mem : Bytes → Bool
  decode_temp : Bytes → Bool
  extract_duration : Bytes → ℤ
  ratio : Str → Str → ℚ
  sha256 : Bytes → Str
  artist_from_filename : Str → Str
  salt : Str
  local_save_ok : Bool
  insert_result : InsertResult

/-- One multipart submission: the form fields and the audio bytes that
the modelled control flow reads. -/
structure Submission where
  title : Str
  artist_name : Str
  album : Option Str
  filename : Str
  content : Bytes
  skip_duplicate_check : Bool

/-- Outcome of `upload_mix`, each constructor paired with the storage
state at the moment the response is produced:  `validation_error` is
the 400 path, `local_save_error` the 500 `local_save_failed` path,
`duplicate_conflict` / `path_conflict` / `db_conflict` the three 409
paths, `db_error` the 500 database path, and `created` the 201 path. -/
inductive UploadResult where
  | validation_error (code : ErrCode)
  | local_save_error (st : StorageState)
  | duplicate_conflict (info : DupMatch) (st : StorageState)
  | path_conflict (st : StorageState)
  | db_conflict (st : StorageState)
  | db_error (st : StorageState)
  | created (rec : MixRec) (provider : StorageProvider) (fallback_from_b2 : Bool)
      (st : StorageState)

/-- `UPLOAD_DIR = os.getenv("UPLOAD_DIR", "uploads")` (uploads.py, line
212), at its default. -/
def UPLOAD_DIR : Str := "uploads".toList

/-- The database predicate handed to `get_unique_filepath`: whether any
catalog row stores exactly this `file_path`. -/
def db_has (env : UploadEnv) : Str → Bool :=
  fun p => env.db.any (fun t => t.file_path == p)

/-- The B2 key sanitisation of `upload_mix` (uploads.py, lines
1000–1001): lowercase, replace every character outside
`[a-zA-Z0-9-]` by `-`, collapse runs of `-`, strip `-` from both
ends. -/
def clean_base_of (base_name : Str) : Str :=
  stripEnds (fun c => c = '-')
    (collapseRuns (fun c => c = '-') '-' false
      ((base_name.map pyLower).map (fun c => if isAsciiAlnum c || c = '-' then c else '-')))

/-- The salted-key hash component for forced uploads (uploads.py, line
1007): `(file_hash or timestamp-random).replace("/", "_")[:32]`;
`salt` models the timestamp-random fallback. -/
def safe_hash_of (file_hash salt : Str) : Str :=
  ((if file_hash = [] then salt else file_hash).map
    (fun c => if c = '/' then '_' else c)).take 32

/-- The compensating cleanup run on every conflict/error path after the
storage write (uploads.py, lines 1087–1100, 1123–1136, 1225–1236,
1249–1261): only B2 objects are deleted (and only when the URL parses
back to a key and the delete succeeds); a local-tier file is never
removed. -/
def compensate_b2 (env : UploadEnv) (url : Str) (st : StorageState) : StorageState :=
  if is_configured env.b2 && !url.isEmpty then
    match extract_key_from_url env.b2 url with
    | some key => if delete_file env.b2 key then { st with remoteHolds := false } else st
    | none => st
  else st

/-- The catalog row that `crud.create_mix` (crud.py, lines 20–44)
persists for this submission.  `create_mix` copies the `MixCreate`
fields, which include no `file_hash`, so the stored hash is `none`. -/
def mk_mix_rec (env : UploadEnv) (sub : Submission) (artist_name : Str)
    (duration_seconds : ℤ) (file_size_mb : ℚ) (url : Str) : MixRec :=
  { id := env.next_id
    title := sub.title
    artist_name := artist_name
    album := sub.album
    duration_seconds := (duration_seconds : ℚ)
    file_size_mb := file_size_mb
    file_path := url
    file_hash := none }

/-- The tail of `upload_mix` after the storage write (uploads.py, lines
1073–1270): the duplicate check (not gated on
`skip_duplicate_check`), the exact-`file_path` guard (gated on it),
and the database commit with its compensating cleanup. -/
def finish_upload (env : UploadEnv) (sub : Submission) (artist_name : Str)
    (file_size_bytes : Nat) (file_hash : Str) (duration_seconds : ℤ)
    (url : Str) (provider : StorageProvider) (fallback_from_b2 : Bool)
    (st : StorageState) : UploadResult :=
  match check_for_duplicate_track env.ratio mix_model_has_file_hash env.db sub.title
      artist_name (file_size_bytes : ℚ) (some file_hash)
      (some (duration_seconds : ℚ)) sub.album with
  | some info => .duplicate_conflict info (compensate_b2 env url st)
  | none =>
    if (env.db.find? (fun t => t.file_path == url)).isSome && !sub.skip_duplicate_check then
      .path_conflict (compensate_b2 env url st)
    else
      match env.insert_result with
      | .ok =>
        .created
          (mk_mix_rec env sub artist_name duration_seconds
            ((file_size_bytes : ℚ) / (1024 * 1024)) url)
          provider fallback_from_b2 st
      | .integrity_error => .db_conflict (compensate_b2 env url st)
      | .other_error => .db_error (compensate_b2 env url st)

/-- Translation of `calculate_file_hash` (uploads.py, lines 370–374):
`hashlib.sha256(file_content).hexdigest()`.  The digest itself is the
external `hashlib` primitive, supplied by the environment; the
definition records that it is applied to the raw bytes only. -/
def calculate_file_hash (sha256 : Bytes → Str) (file_content : Bytes) : Str :=
  sha256 file_content

/-- The effective artist of the submission (uploads.py, lines 856–869):
the declared `artist_name` unless blank, in which case the
filename-derived heuristic (whose regex machinery is folded into the
environment, including the terminal "Unknown Artist" default). -/
def upload_artist (env : UploadEnv) (sub : Submission) : Str :=
  if stripEnds isPySpace sub.artist_name = [] then env.artist_from_filename sub.filename
  else sub.artist_name

/-- `base_name = f"{sanitized_artist} - {sanitized_title}"` (uploads.py,
line 884). -/
def upload_base_name (env : UploadEnv) (sub : Submission) : Str :=
  sanitize_filename (upload_artist env sub) ++ (" - ".toList) ++ sanitize_filename sub.title

/-- The B2 object key for the audio bytes (uploads.py, lines
1003–1012): salted with the hash component when
`skip_duplicate_check` is set, descriptive otherwise. -/
def upload_audio_key (env : UploadEnv) (sub : Submission) (ext : Str) : Str :=
  if sub.skip_duplicate_check then
    ("audio/".toList) ++ clean_base_of (upload_base_name env sub) ++ '-' ::
      (safe_hash_of (calculate_file_hash env.sha256 sub.content) env.salt ++ ext)
  else ("audio/".toList) ++ clean_base_of (upload_base_name env sub) ++ ext

/-- The B2-first upload attempt (uploads.py, lines 994–1043): returns
the public URL (when the bounded put succeeded) and whether the remote
tier holds the bytes afterwards (on an `asyncio` timeout the
backgrounded thread may still complete, which `timeout_bg_write`
resolves). -/
def b2_first_attempt (env : UploadEnv) (key : Str) : Option Str × Bool :=
  if is_configured env.b2 then
    if env.put_timeout then (none, env.timeout_bg_write)
    else
      match put_bytes_safe env.b2 key with
      | .ok u _ => (some u, true)
      | .err _ => (none, false)
  else (none, false)

/-- The public URL of the local-fallback write (uploads.py, lines
1055–1062): `/uploads/` plus the collision-checked unique filename. -/
def local_fallback_url (env : UploadEnv) (sub : Submission) : Str :=
  ("/uploads/".toList) ++
    get_unique_filepath (db_has env) env.disk UPLOAD_DIR
      (sanitize_filename (if sub.filename = [] then "untitled.mp3".toList else sub.filename))

/-- Translation of the `upload_mix` request handler (uploads.py, lines
804–1270): full validation, artist fallback, fingerprinting, the
B2-first storage write with local fallback, then `finish_upload`
(duplicate check, path guard, commit).  The `local_file_path`
precomputation of line 882 is a pure read whose result is shadowed
before use (line 1057) and is therefore omitted. -/
def upload_mix (env : UploadEnv) (sub : Submission) : UploadResult :=
  match validate_audio_file env.decode_mem env.decode_temp sub.content sub.filename false with
  | .invalid code => .validation_error code
  | .valid _mime ext file_size_bytes =>
    match (b2_first_attempt env (upload_audio_key env sub ext)).1 with
    | some url =>
      if url.isEmpty then
        -- Python falsiness of the empty URL string would take the local
        -- fallback; `put_bytes_safe` never returns an empty URL, so this
        -- branch is unreachable and mirrors the fallback below.
        if env.local_save_ok = false then
          .local_save_error ⟨(b2_first_attempt env (upload_audio_key env sub ext)).2, false⟩
        else
          finish_upload env sub (upload_artist env sub) file_size_bytes
            (calculate_file_hash env.sha256 sub.content) (env.extract_duration sub.content)
            (local_fallback_url env sub) .local_filesystem (is_configured env.b2)
            ⟨(b2_first_attempt env (upload_audio_key env sub ext)).2, true⟩
      else
        finish_upload env sub (upload_artist env sub) file_size_bytes
          (calculate_file_hash env.sha256 sub.content) (env.extract_duration sub.content) url
          .b2 false ⟨(b2_first_attempt env (upload_audio_key env sub ext)).2, false⟩
    | none =>
      if env.local_save_ok = false then
        .local_save_error ⟨(b2_first_attempt env (upload_audio_key env sub ext)).2, false⟩
      else
        finish_upload env sub (upload_artist env sub) file_size_bytes
          (calculate_file_hash env.sha256 sub.content) (env.extract_duration sub.content)
          (local_fallback_url env sub) .local_filesystem (is_configured env.b2)
          ⟨(b2_first_attempt env (upload_audio_key env sub ext)).2, true⟩

/-- The validated file extension of a submission (`.valid` branch of
the validator; `[]` on the rejected branch, where it is never used). -/
def upload_ext (env : UploadEnv) (sub : Submission) : Str :=
  match validate_audio_file env.decode_mem env.decode_temp sub.content sub.filename false with
  | .valid _ e _ => e
  | .invalid _ => []

/-- Whether the single remote put attempt of this request failed
(timed out, or returned a structured error class). -/
def b2_attempt_failed (env : UploadEnv) (sub : Submission) (ext : Str) : Bool :=
  env.put_timeout ||
    (match put_bytes_safe env.b2 (upload_audio_key env sub ext) with
     | .ok _ _ => false
     | .err _ => true)

/-! ### Verification-layer predicates -/

/-- A character that can appear in fully normalized text: a lowercase
ASCII alphanumeric or a single space. -/
def canonicalChar (c : Char) : Bool := isLowerAlnum c || c == ' '

/-- The contract of `difflib.SequenceMatcher.ratio`: a similarity value
in `[0, 1]`. -/
def scores_bounded (R : Str → Str → ℚ) : Prop := ∀ a b, 0 ≤ R a b ∧ R a b ≤ 1

/-! Concrete witness fixtures.  The ratio functions stand for
`difflib.SequenceMatcher.ratio` on the particular strings compared
(difflib returns 1 on equal strings); the tracks are concrete catalog
rows. -/

/-- A similarity oracle that scores equal strings 1 and others 0. -/
def ratioEq : Str → Str → ℚ := fun a b => if a = b then 1 else 0

/-- A similarity oracle that scores equal strings 1 and others
`299/300` (as difflib could for near-identical strings). -/
def ratioNear : Str → Str → ℚ := fun a b => if a = b then 1 else 299/300

/-- A concrete catalog row for witnesses. -/
def trackSong : MixRec :=
  ⟨7, "song".toList, "artist".toList, none, 0, 0, "/uploads/song.mp3".toList, none⟩

/-- A concrete catalog row whose comparison lands at 0.699. -/
def trackT699 : MixRec :=
  ⟨5, "t".toList, "b".toList, none, 0, 0, "/uploads/t.mp3".toList, none⟩

/-- The duplicate-info value produced for `trackSong` at confidence
exactly 0.7. -/
def wMatch : DupMatch := ⟨7, MatchType.metadata, 7/10⟩

/-- A concrete filesystem for the C8 witness: exactly the two resolved
local files exist. -/
def wFs : Str → Bool :=
  fun s => (s == ("uploads/x/y.mp3".toList)) || (s == ("uploads/y.mp3".toList))

/-- A catalog row pointing at a (dead) remote URL. -/
def wRemoteRec : MixRec :=
  ⟨9, "far".toList, "who".toList, none, 0, 0, "https://cdn.example/b/far.mp3".toList, none⟩

/-- A concrete request environment: B2 disabled (deliberate local-only
deployment), empty catalog, healthy local filesystem and database,
decoders succeed, similarity oracle `ratioEq`, a hash that depends on
the bytes only. -/
def cEnvBase : UploadEnv :=
  { b2 := ⟨B2Mode.disabled, [], [], [], none, true⟩
    put_timeout := false
    timeout_bg_write := false
    db := []
    next_id := 1
    disk := fun _ => false
    decode_mem := fun _ => true
    decode_temp := fun _ => true
    extract_duration := fun _ => 0
    ratio := ratioEq
    sha256 := fun b => b.map (fun n => Char.ofNat (97 + n % 26))
    artist_from_filename := fun _ => "Unknown Artist".toList
    salt := "salt".toList
    local_save_ok := true
    insert_result := InsertResult.ok }

/-- First submission: title "Alpha" by "Beta", bytes `[1, 2, 3]`. -/
def cSubA : Submission :=
  ⟨"Alpha".toList, "Beta".toList, none, "a.mp3".toList, [1, 2, 3], false⟩

/-- Second submission with the *identical* byte sequence but entirely
different declared names. -/
def cSubB : Submission :=
  ⟨"Gamma".toList, "Delta".toList, none, "b.mp3".toList, [1, 2, 3], false⟩

/-- The same submission as `cSubA` but with `skip_duplicate_check`
set. -/
def cSubSkip : Submission :=
  ⟨"Alpha".toList, "Beta".toList, none, "a.mp3".toList, [1, 2, 3], true⟩

/-- The catalog row committed for `cSubA` (note `file_hash = none`). -/
def cRecA : MixRec :=
  mk_mix_rec cEnvBase cSubA ("Beta".toList) 0 ((3 : ℚ) / (1024 * 1024))
    ("/uploads/a.mp3".toList)

/-- The environment of the second upload: the catalog now holds
`cRecA`. -/
def cEnvC2 : UploadEnv := { cEnvBase with db := [cRecA], next_id := 2 }

/-- A pre-existing catalog row with the same declared title and artist
as `cSubSkip` (what the duplicate detector will match at 0.7). -/
def trackAlpha : MixRec :=
  ⟨3, "Alpha".toList, "Beta".toList, none, 0, 0, "/uploads/old.mp3".toList, none⟩

/-- The environment of the C1 failing input: B2 not configured, catalog
already holding `trackAlpha`. -/
def cEnvC1 : UploadEnv := { cEnvBase with db := [trackAlpha] }

/-- The catalog row committed for `cSubB` by the second upload. -/
def cRecB : MixRec :=
  mk_mix_rec cEnvC2 cSubB ("Delta".toList) 0 ((3 : ℚ) / (1024 * 1024))
    ("/uploads/b.mp3".toList)

/-! ## Theorems

### String normalization (C10) -/

theorem mem_pySpaceChars_of_isPySpace {c : Char} (h : isPySpace c = true) :
    c ∈ pySpaceChars := by
  simpa [isPySpace, List.contains, List.elem_iff] using h

theorem pySpaceChars_classes :
    ∀ c ∈ pySpaceChars, isLowerAlnum c = false ∧ isAsciiAlnum c = false ∧
      ¬(97 ≤ c.toNat ∧ c.toNat ≤ 122) := by
  decide

theorem not_isPySpace_of_isLowerAlnum {c : Char} (h : isLowerAlnum c = true) :
    isPySpace c = false := by
  by_contra h'
  rw [Bool.not_eq_false] at h'
  have := (pySpaceChars_classes c (mem_pySpaceChars_of_isPySpace h')).1
  rw [h] at this
  exact Bool.true_eq_false.mp this

theorem isPySpace_space : isPySpace ' ' = true := by decide

theorem isLowerAlnum_toNat {c : Char} (h : isLowerAlnum c = true) :
    (97 ≤ c.toNat ∧ c.toNat ≤ 122) ∨ (48 ≤ c.toNat ∧ c.toNat ≤ 57) := by
  simpa [isLowerAlnum, Bool.or_eq_true, decide_eq_true_eq] using h

theorem isAsciiAlnum_toNat {c : Char} (h : isAsciiAlnum c = true) :
    (97 ≤ c.toNat ∧ c.toNat ≤ 122) ∨ (65 ≤ c.toNat ∧ c.toNat ≤ 90) ∨
      (48 ≤ c.toNat ∧ c.toNat ≤ 57) := by
  simpa [isAsciiAlnum, Bool.or_eq_true, decide_eq_true_eq, or_assoc] using h

theorem canonicalChar_elim {c : Char} (h : canonicalChar c = true) :
    isLowerAlnum c = true ∨ c = ' ' := by
  simpa [canonicalChar] using h

theorem keepAlnumSpace_elim {c : Char} (h : keepAlnumSpace c = true) :
    isAsciiAlnum c = true ∨ isPySpace c = true := by
  simpa [keepAlnumSpace] using h

theorem isLowerAlnum_of_toNat {c : Char}
    (h : (97 ≤ c.toNat ∧ c.toNat ≤ 122) ∨ (48 ≤ c.toNat ∧ c.toNat ≤ 57)) :
    isLowerAlnum c = true := by
  simpa [isLowerAlnum, Bool.or_eq_true, decide_eq_true_eq] using h

theorem pyLower_eq_self_of_nonupper {c : Char} (h : ¬(65 ≤ c.toNat ∧ c.toNat ≤ 90)) :
    pyLower c = c := by
  simp only [pyLower, Char.toLower]
  rw [if_neg]
  simpa using h

theorem char_toNat_ofNat_valid {n : Nat} (h : n < 55296) : (Char.ofNat n).toNat = n := by
  unfold Char.ofNat
  rw [dif_pos (Or.inl h)]
  rfl

theorem pyLower_upper_toNat {c : Char} (h : 65 ≤ c.toNat ∧ c.toNat ≤ 90) :
    (pyLower c).toNat = c.toNat + 32 := by
  simp only [pyLower, Char.toLower]
  rw [if_pos (by simpa using h)]
  exact char_toNat_ofNat_valid (by omega)

theorem pyLower_canonical_of_keep {c : Char}
    (h : (isAsciiAlnum c = true ∧ isPySpace c = false) ∨ c = ' ') :
    canonicalChar (pyLower c) = true := by
  rcases h with ⟨ha, _⟩ | rfl
  · rcases isAsciiAlnum_toNat ha with h1 | h2 | h3
    · rw [pyLower_eq_self_of_nonupper (by omega)]
      simp [canonicalChar, isLowerAlnum_of_toNat (Or.inl h1)]
    · have ht := pyLower_upper_toNat h2
      have hla : isLowerAlnum (pyLower c) = true := isLowerAlnum_of_toNat (Or.inl (by omega))
      simp [canonicalChar, hla]
    · rw [pyLower_eq_self_of_nonupper (by omega)]
      simp [canonicalChar, isLowerAlnum_of_toNat (Or.inr h3)]
  · decide

theorem pyLower_space_iff {c : Char} : pyLower c = ' ' ↔ c = ' ' := by
  constructor
  · intro h
    by_cases hu : 65 ≤ c.toNat ∧ c.toNat ≤ 90
    · have := pyLower_upper_toNat hu
      rw [h] at this
      simp only [show (' ' : Char).toNat = 32 from rfl] at this
      omega
    · rwa [pyLower_eq_self_of_nonupper hu] at h
  · rintro rfl
    decide

theorem not_isPySpace_pyLower {c : Char} (h : isPySpace c = false) :
    isPySpace (pyLower c) = false := by
  by_cases hu : 65 ≤ c.toNat ∧ c.toNat ≤ 90
  · have ht := pyLower_upper_toNat hu
    by_contra h'
    rw [Bool.not_eq_false] at h'
    have := (pySpaceChars_classes _ (mem_pySpaceChars_of_isPySpace h')).2.2
    omega
  · rwa [pyLower_eq_self_of_nonupper hu]

theorem mem_collapseRuns {p : Char → Bool} {r : Char} :
    ∀ {b : Bool} {l : Str} {c : Char}, c ∈ collapseRuns p r b l →
      (c ∈ l ∧ p c = false) ∨ c = r := by
  intro b l
  induction l generalizing b with
  | nil => intro c h; simp [collapseRuns] at h
  | cons d ds ih =>
    intro c h
    by_cases hd : p d = true
    · cases b with
      | true =>
        simp only [collapseRuns, hd, if_true] at h
        rcases ih h with ⟨h1, h2⟩ | h1
        · exact Or.inl ⟨List.mem_cons_of_mem _ h1, h2⟩
        · exact Or.inr h1
      | false =>
        simp only [collapseRuns, hd, if_true] at h
        rcases List.mem_cons.mp h with rfl | h'
        · exact Or.inr rfl
        · rcases ih h' with ⟨h1, h2⟩ | h1
          · exact Or.inl ⟨List.mem_cons_of_mem _ h1, h2⟩
          · exact Or.inr h1
    · rw [Bool.not_eq_true] at hd
      simp only [collapseRuns, hd, Bool.false_eq_true, if_false] at h
      rcases List.mem_cons.mp h with rfl | h'
      · exact Or.inl ⟨List.mem_cons_self _ _, hd⟩
      · rcases ih h' with ⟨h1, h2⟩ | h1
        · exact Or.inl ⟨List.mem_cons_of_mem _ h1, h2⟩
        · exact Or.inr h1

theorem collapseRuns_true_head {p : Char → Bool} {r : Char} :
    ∀ l : Str, collapseRuns p r true l = [] ∨
      ∃ d ds, collapseRuns p r true l = d :: ds ∧ p d = false := by
  intro l
  induction l with
  | nil => exact Or.inl rfl
  | cons d ds ih =>
    by_cases hd : p d = true
    · simpa only [collapseRuns, hd, if_true] using ih
    · rw [Bool.not_eq_true] at hd
      exact Or.inr ⟨d, collapseRuns p r false ds,
        by simp only [collapseRuns, hd, Bool.false_eq_true, if_false], hd⟩

theorem chain'_collapseRuns {p : Char → Bool} {r : Char} :
    ∀ (b : Bool) (l : Str),
      List.Chain' (fun x y => ¬(p x = true ∧ p y = true)) (collapseRuns p r b l) := by
  intro b l
  induction l generalizing b with
  | nil => simp [collapseRuns]
  | cons d ds ih =>
    by_cases hd : p d = true
    · cases b with
      | true => simpa only [collapseRuns, hd, if_true] using ih true
      | false =>
        simp only [collapseRuns, hd, if_true]
        refine List.chain'_cons'.mpr ⟨?_, ih true⟩
        intro y hy
        rcases collapseRuns_true_head (p := p) (r := r) ds with h | ⟨e, es, heq, hpe⟩
        · rw [h] at hy; simp at hy
        · rw [heq] at hy
          simp only [List.head?_cons, Option.mem_def, Option.some_inj] at hy
          subst hy
          intro hcon
          rw [hpe] at hcon
          exact Bool.false_eq_true.mp hcon.2
    · rw [Bool.not_eq_true] at hd
      simp only [collapseRuns, hd, Bool.false_eq_true, if_false]
      refine List.chain'_cons'.mpr ⟨?_, ih false⟩
      intro y _ hcon
      rw [hd] at hcon
      exact Bool.false_eq_true.mp hcon.1

theorem collapseRuns_id (t : Str) (hc : ∀ c ∈ t, canonicalChar c = true)
    (hch : List.Chain' (fun a b => ¬(a = ' ' ∧ b = ' ')) t) :
    collapseRuns isPySpace ' ' false t = t := by
  induction t with
  | nil => rfl
  | cons c cs ih =>
    have hcanon := hc c (List.mem_cons_self _ _)
    have htl : List.Chain' (fun a b => ¬(a = ' ' ∧ b = ' ')) cs :=
      (List.chain'_cons'.mp hch).2
    have hcs : ∀ x ∈ cs, canonicalChar x = true := fun x hx => hc x (List.mem_cons_of_mem _ hx)
    rcases canonicalChar_elim hcanon with hla | hsp
    · have hns : isPySpace c = false := not_isPySpace_of_isLowerAlnum hla
      simp only [collapseRuns, hns, Bool.false_eq_true, if_false]
      rw [ih hcs htl]
    · have hc' : c = ' ' := by simpa using hsp
      subst hc'
      simp only [collapseRuns, isPySpace_space, if_true]
      cases cs with
      | nil => rfl
      | cons d ds =>
        have hd_ne : ¬(' ' = ' ' ∧ d = ' ') := (List.chain'_cons'.mp hch).1 d (by simp)
        have hd : d ≠ ' ' := fun h => hd_ne ⟨rfl, h⟩
        have hdla : isLowerAlnum d = true := by
          have := hcs d (List.mem_cons_self _ _)
          rcases canonicalChar_elim this with h | h
          · exact h
          · exact absurd (by simpa using h) hd
        have hdns : isPySpace d = false := not_isPySpace_of_isLowerAlnum hdla
        have hind := ih hcs htl
        simp only [collapseRuns, hdns, Bool.false_eq_true, if_false] at hind ⊢
        rw [List.cons.injEq] at hind
        rw [hind.2]

theorem map_pyLower_id (t : Str) (hc : ∀ c ∈ t, canonicalChar c = true) :
    t.map pyLower = t := by
  induction t with
  | nil => rfl
  | cons c cs ih =>
    have hcanon := hc c (List.mem_cons_self _ _)
    have hfix : pyLower c = c := by
      rcases canonicalChar_elim hcanon with hla | hsp
      · rcases isLowerAlnum_toNat hla with h | h
        · exact pyLower_eq_self_of_nonupper (by omega)
        · exact pyLower_eq_self_of_nonupper (by omega)
      · have : c = ' ' := by simpa using hsp
        subst this; decide
    simp only [List.map_cons, hfix, ih (fun x hx => hc x (List.mem_cons_of_mem _ hx))]

theorem filter_keep_id (t : Str) (hc : ∀ c ∈ t, canonicalChar c = true) :
    t.filter keepAlnumSpace = t := by
  refine List.filter_eq_self.mpr fun a ha => ?_
  have := hc a ha
  rcases canonicalChar_elim this with hla | hsp
  · rcases isLowerAlnum_toNat hla with h | h
    · simp [keepAlnumSpace, isAsciiAlnum]; omega
    · simp [keepAlnumSpace, isAsciiAlnum]; omega
  · have : a = ' ' := by simpa using hsp
    subst this; decide

theorem stripEnds_eq_rdropWhile (p : Char → Bool) (l : Str) :
    stripEnds p l = List.rdropWhile p (l.dropWhile p) := rfl

theorem stripEnds_subset {p : Char → Bool} {l : Str} : stripEnds p l ⊆ l := by
  rw [stripEnds_eq_rdropWhile]
  have h1 := List.rdropWhile_prefix p (l.dropWhile p)
  exact h1.sublist.subset.trans (List.dropWhile_sublist _).subset

theorem stripEnds_id (p : Char → Bool) (t : Str)
    (hh : ∀ c, t.head? = some c → p c = false)
    (hl : ∀ c, t.getLast? = some c → p c = false) :
    stripEnds p t = t := by
  rw [stripEnds_eq_rdropWhile]
  have h1 : t.dropWhile p = t := by
    cases t with
    | nil => rfl
    | cons c cs =>
      have := hh c rfl
      simp [List.dropWhile_cons, this]
  rw [h1]
  rcases eq_or_ne t [] with rfl | hne
  · simp [List.rdropWhile]
  · refine List.rdropWhile_eq_self_iff.mpr fun h => ?_
    have := hl (t.getLast h) (List.getLast?_eq_getLast t h ▸ rfl)
    simp [this]

theorem dropWhile_head_not {p : Char → Bool} :
    ∀ {l : Str} {c : Char}, (l.dropWhile p).head? = some c → p c = false := by
  intro l
  induction l with
  | nil => intro c h; simp [List.dropWhile] at h
  | cons d ds ih =>
    intro c h
    by_cases hd : p d = true
    · rw [List.dropWhile_cons, if_pos hd] at h
      exact ih h
    · rw [Bool.not_eq_true] at hd
      rw [List.dropWhile_cons, if_neg (by simp [hd])] at h
      simp only [List.head?_cons, Option.some_inj] at h
      subst h; exact hd

theorem normalize_chars (s : Str) :
    ∀ c ∈ normalize_string s, canonicalChar c = true := by
  intro c hc
  unfold normalize_string at hc
  split at hc
  · simp at hc
  · rcases List.mem_map.mp hc with ⟨d, hd, rfl⟩
    have hd' := stripEnds_subset hd
    rcases mem_collapseRuns hd' with ⟨h1, h2⟩ | h1
    · have hk := List.of_mem_filter h1
      have : isAsciiAlnum d = true := by
        rcases keepAlnumSpace_elim hk with h | h
        · exact h
        · rw [h] at h2; exact absurd h2 (by simp)
      exact pyLower_canonical_of_keep (Or.inl ⟨this, h2⟩)
    · exact pyLower_canonical_of_keep (Or.inr h1)

theorem normalize_chain (s : Str) :
    List.Chain' (fun a b => ¬(a = ' ' ∧ b = ' ')) (normalize_string s) := by
  unfold normalize_string
  split
  · simp
  · have base := chain'_collapseRuns (p := isPySpace) (r := ' ') false
      ((s.filter keepAlnumSpace))
    have strip : List.Chain' (fun x y => ¬(isPySpace x = true ∧ isPySpace y = true))
        (stripEnds isPySpace (collapseRuns isPySpace ' ' false (s.filter keepAlnumSpace))) := by
      rw [stripEnds_eq_rdropWhile]
      have h1 := base.suffix (List.dropWhile_suffix isPySpace)
      have h2 := List.rdropWhile_prefix isPySpace
        ((collapseRuns isPySpace ' ' false (s.filter keepAlnumSpace)).dropWhile isPySpace)
      exact List.Chain'.prefix h1 h2
    refine (List.chain'_map pyLower).mpr (strip.imp ?_)
    intro a b hab hcon
    exact hab ⟨by rw [pyLower_space_iff.mp hcon.1]; exact isPySpace_space,
      by rw [pyLower_space_iff.mp hcon.2]; exact isPySpace_space⟩

theorem normalize_head (s : Str) :
    ∀ c, (normalize_string s).head? = some c → isPySpace c = false := by
  intro c hc
  unfold normalize_string at hc
  split at hc
  · simp at hc
  · rw [List.head?_map] at hc
    rcases Option.map_eq_some'.mp hc with ⟨d, hd, rfl⟩
    rw [stripEnds_eq_rdropWhile] at hd
    have hpre := List.rdropWhile_prefix isPySpace
      ((collapseRuns isPySpace ' ' false (s.filter keepAlnumSpace)).dropWhile isPySpace)
    rcases hpre with ⟨tl, htl⟩
    have hd2 : ((collapseRuns isPySpace ' ' false (s.filter keepAlnumSpace)).dropWhile
        isPySpace).head? = some d := by
      rw [← htl]
      cases h : List.rdropWhile isPySpace
          ((collapseRuns isPySpace ' ' false (s.filter keepAlnumSpace)).dropWhile isPySpace) with
      | nil => rw [h] at hd; simp at hd
      | cons x xs =>
        rw [h] at hd
        simp only [List.head?_cons, Option.some_inj] at hd
        subst hd
        simp [List.cons_append]
    exact not_isPySpace_pyLower (dropWhile_head_not hd2)

theorem normalize_last (s : Str) :
    ∀ c, (normalize_string s).getLast? = some c → isPySpace c = false := by
  intro c hc
  unfold normalize_string at hc
  split at hc
  · simp at hc
  · rw [List.getLast?_map] at hc
    rcases Option.map_eq_some'.mp hc with ⟨d, hd, rfl⟩
    rw [stripEnds_eq_rdropWhile] at hd
    set l := (collapseRuns isPySpace ' ' false (s.filter keepAlnumSpace)).dropWhile isPySpace
    have hne : List.rdropWhile isPySpace l ≠ [] := by
      intro h; rw [h] at hd; simp at hd
    have hlast := List.rdropWhile_last_not (l := l) (p := isPySpace) hne
    have : (List.rdropWhile isPySpace l).getLast hne = d := by
      have := List.getLast?_eq_getLast (List.rdropWhile isPySpace l) hne
      rw [this] at hd
      exact (Option.some_inj.mp hd)
    rw [this] at hlast
    exact not_isPySpace_pyLower (by simpa using hlast)

theorem normalize_fix (t : Str) (hc : ∀ c ∈ t, canonicalChar c = true)
    (hch : List.Chain' (fun a b => ¬(a = ' ' ∧ b = ' ')) t)
    (hh : ∀ c, t.head? = some c → isPySpace c = false)
    (hl : ∀ c, t.getLast? = some c → isPySpace c = false) :
    normalize_string t = t := by
  rcases eq_or_ne t [] with rfl | hne
  · rfl
  · unfold normalize_string
    rw [if_neg hne, filter_keep_id t hc, collapseRuns_id t hc hch,
      stripEnds_id isPySpace t hh hl, map_pyLower_id t hc]

/-- C10: string normalization used for duplicate comparison is
idempotent, and its output consists only of lowercase alphanumeric
characters separated by single spaces, with no leading or trailing
whitespace. -/
theorem c10_normalize_idempotent_canonical (s : Str) :
    normalize_string (normalize_string s) = normalize_string s ∧
    (∀ c ∈ normalize_string s, isLowerAlnum c = true ∨ c = ' ') ∧
    List.Chain' (fun a b => ¬(a = ' ' ∧ b = ' ')) (normalize_string s) ∧
    (∀ c, (normalize_string s).head? = some c → isPySpace c = false) ∧
    (∀ c, (normalize_string s).getLast? = some c → isPySpace c = false) := by
  refine ⟨normalize_fix _ (normalize_chars s) (normalize_chain s) (normalize_head s)
      (normalize_last s), fun c hc => ?_, normalize_chain s, normalize_head s,
      normalize_last s⟩
  have := normalize_chars s c hc
  rcases canonicalChar_elim this with h | h
  · exact Or.inl h
  · exact Or.inr (by simpa using h)

/-- Witness for C10 at a concrete input. -/
theorem c10_witness :
    normalize_string (normalize_string (" The  ART-ist!  42 ".toList)) =
      normalize_string (" The  ART-ist!  42 ".toList) :=
  (c10_normalize_idempotent_canonical (" The  ART-ist!  42 ".toList)).1

/-! ### Duplicate detector: bounds, threshold and rounding lemmas -/

theorem pyAbs_nonneg (q : ℚ) : 0 ≤ pyAbs q := by
  unfold pyAbs
  split <;> linarith

theorem calculate_similarity_bounds {R : Str → Str → ℚ} (hb : scores_bounded R)
    (s t : Str) : 0 ≤ calculate_similarity R s t ∧ calculate_similarity R s t ≤ 1 := by
  unfold calculate_similarity
  split
  · norm_num
  · exact hb _ _

theorem duration_decay_bounds {x : ℚ} (hx : 0 ≤ x) :
    0 ≤ duration_decay x ∧ duration_decay x ≤ 1 := by
  unfold duration_decay
  split <;> constructor <;> linarith

theorem duration_similarity_bounds (d? : Option ℚ) (td : ℚ) :
    0 ≤ duration_similarity d? td ∧ duration_similarity d? td ≤ 1 := by
  cases d? with
  | none => simp [duration_similarity]
  | some d =>
    simp only [duration_similarity]
    split
    · exact duration_decay_bounds (pyAbs_nonneg _)
    · norm_num

theorem size_decay_bounds {p : ℚ} (hp : 0 ≤ p) :
    0 ≤ size_decay p ∧ size_decay p ≤ 1 := by
  unfold size_decay
  split <;> constructor <;> linarith

theorem size_similarity_bounds {tm fm : ℚ} (htm : 0 ≤ tm) (_hfm : 0 ≤ fm) :
    0 ≤ size_similarity tm fm ∧ size_similarity tm fm ≤ 1 := by
  unfold size_similarity
  split
  · rename_i hne
    have htm' : 0 < tm := lt_of_le_of_ne htm (Ne.symm hne)
    have hmax : 0 < pyMax tm fm := by
      unfold pyMax
      split <;> linarith
    exact size_decay_bounds (div_nonneg (pyAbs_nonneg _) hmax.le)
  · norm_num

theorem album_similarity_bounds {R : Str → Str → ℚ} (hb : scores_bounded R)
    (na : Str) (ta : Option Str) :
    0 ≤ album_similarity R na ta ∧ album_similarity R na ta ≤ 1 := by
  unfold album_similarity
  split
  · exact calculate_similarity_bounds hb _ _
  · norm_num

theorem weighted_confidence_bounds {R : Str → Str → ℚ} (hb : scores_bounded R)
    (nt na nal : Str) {fs : ℚ} (hfs : 0 ≤ fs) (d : Option ℚ) {t : MixRec}
    (ht : 0 ≤ t.file_size_mb) :
    0 ≤ weighted_confidence R nt na nal fs d t ∧
      weighted_confidence R nt na nal fs d t ≤ 1 := by
  have h1 := calculate_similarity_bounds hb nt (normalize_string t.title)
  have h2 := calculate_similarity_bounds hb na (normalize_string t.artist_name)
  have h3 := duration_similarity_bounds d t.duration_seconds
  have h4 := album_similarity_bounds hb nal t.album
  have h5 := size_similarity_bounds ht
    (show (0:ℚ) ≤ fs / (1024 * 1024) by positivity)
  unfold weighted_confidence confidence_factors
  simp only [List.map_cons, List.map_nil, List.sum_cons, List.sum_nil]
  constructor <;> nlinarith [h1.1, h1.2, h2.1, h2.2, h3.1, h3.2, h4.1, h4.2, h5.1, h5.2]

theorem roundHalfEven_le_ceil (x : ℚ) : roundHalfEven x ≤ ⌈x⌉ := by
  simp only [roundHalfEven]
  split
  · exact Int.floor_le_ceil x
  · split
    · rename_i h1 h2
      have hx : (⌊x⌋ : ℚ) < x := by linarith
      have := Int.lt_ceil.mpr hx
      omega
    · split
      · exact Int.floor_le_ceil x
      · rename_i h1 h2 _
        have hx : (⌊x⌋ : ℚ) < x := by linarith
        have := Int.lt_ceil.mpr hx
        omega

theorem floor_le_roundHalfEven (x : ℚ) : ⌊x⌋ ≤ roundHalfEven x := by
  simp only [roundHalfEven]
  split
  · exact le_refl _
  · split
    · omega
    · split
      · exact le_refl _
      · omega

theorem pyRound3_threshold {q : ℚ} (h7 : 7/10 ≤ q) (h1 : q ≤ 1) :
    7/10 ≤ pyRound3 q ∧ pyRound3 q ≤ 1 := by
  have hfl : (700 : ℤ) ≤ ⌊1000 * q⌋ := Int.le_floor.mpr (by push_cast; linarith)
  have hcl : ⌈1000 * q⌉ ≤ (1000 : ℤ) := Int.ceil_le.mpr (by push_cast; linarith)
  have hlo := floor_le_roundHalfEven (1000 * q)
  have hhi := roundHalfEven_le_ceil (1000 * q)
  unfold pyRound3
  constructor
  · have h : (700 : ℚ) ≤ (roundHalfEven (1000 * q) : ℚ) := by exact_mod_cast le_trans hfl hlo
    rw [le_div_iff₀ (by norm_num : (0:ℚ) < 1000)]
    linarith
  · have h : (roundHalfEven (1000 * q) : ℚ) ≤ 1000 := by exact_mod_cast le_trans hhi hcl
    rw [div_le_one (by norm_num : (0:ℚ) < 1000)]
    linarith

theorem pyRound3_seven_tenths : pyRound3 (7/10) = 7/10 := by
  have h1 : (1000 : ℚ) * (7/10) = ((700 : ℤ) : ℚ) := by norm_num
  unfold pyRound3 roundHalfEven
  rw [h1, Int.floor_intCast]
  norm_num

theorem seven_tenths_lit : (0.7 : ℚ) = 7/10 := by norm_num

theorem best_match_foldl_inv {R : Str → Str → ℚ} (hb : scores_bounded R)
    {nt na nal : Str} {fs : ℚ} (hfs : 0 ≤ fs) {d : Option ℚ} :
    ∀ (l : List MixRec) (acc : Option DupMatch × ℚ),
      (∀ t ∈ l, 0 ≤ t.file_size_mb) →
      (∀ m, acc.1 = some m →
        m.match_type = MatchType.metadata ∧ 7/10 ≤ m.confidence ∧ m.confidence ≤ 1) →
      ∀ m, (l.foldl (best_match_step R nt na nal fs d) acc).1 = some m →
        m.match_type = MatchType.metadata ∧ 7/10 ≤ m.confidence ∧ m.confidence ≤ 1 := by
  intro l
  induction l with
  | nil => intro acc _ hacc m hm; exact hacc m hm
  | cons t ts ih =>
    intro acc hts hacc m hm
    rw [List.foldl_cons] at hm
    refine ih _ (fun x hx => hts x (List.mem_cons_of_mem _ hx)) ?_ m hm
    intro m' hm'
    simp only [best_match_step] at hm'
    split at hm'
    · rename_i hcond
      simp only [Option.some_inj] at hm'
      subst hm'
      have hwc := weighted_confidence_bounds hb nt na nal hfs d
        (hts t (List.mem_cons_self _ _))
      have h7 : 7/10 ≤ weighted_confidence R nt na nal fs d t := by
        have := hcond.2
        rwa [ge_iff_le, seven_tenths_lit] at this
      have hr := pyRound3_threshold h7 hwc.2
      exact ⟨rfl, hr.1, hr.2⟩
    · exact hacc m' hm'

/-- C9: every match the duplicate detector returns carries a confidence
in `[0.7, 1]`: exactly 1 for an exact content-hash match, and at least
the 0.7 threshold (preserved by the three-decimal rounding) for a
metadata-similarity match. -/
theorem c9_match_confidence_range {R : Str → Str → ℚ} (hb : scores_bounded R)
    (has_attr : Bool) (db : List MixRec) (title artist : Str) (fs : ℚ)
    (fh : Option Str) (d : Option ℚ) (al : Option Str)
    (hdb : ∀ t ∈ db, 0 ≤ t.file_size_mb) (hfs : 0 ≤ fs) :
    ∀ m, check_for_duplicate_track R has_attr db title artist fs fh d al = some m →
      (7/10 ≤ m.confidence ∧ m.confidence ≤ 1) ∧
      (m.match_type = MatchType.exact_file → m.confidence = 1) ∧
      (m.match_type = MatchType.metadata → 7/10 ≤ m.confidence) := by
  intro m hm
  unfold check_for_duplicate_track at hm
  by_cases hcond : pyTruthy fh = true ∧ has_attr = true
  · rw [if_pos hcond] at hm
    cases hfind : db.find? (fun t => t.file_hash == fh) with
    | some t =>
      rw [hfind] at hm
      simp only [Option.some_inj] at hm
      subst hm
      refine ⟨⟨by norm_num, le_refl _⟩, fun _ => rfl, fun h => ?_⟩
      simp at h
    | none =>
      rw [hfind] at hm
      simp only at hm
      have := best_match_foldl_inv hb hfs db (none, 0) hdb (by intro m' hm'; simp at hm') m hm
      exact ⟨⟨this.2.1, this.2.2⟩, fun h => by rw [this.1] at h; simp at h, fun _ => this.2.1⟩
  · rw [if_neg hcond] at hm
    simp only at hm
    have := best_match_foldl_inv hb hfs db (none, 0) hdb (by intro m' hm'; simp at hm') m hm
    exact ⟨⟨this.2.1, this.2.2⟩, fun h => by rw [this.1] at h; simp at h, fun _ => this.2.1⟩

/-- C3: the 0.70 similarity threshold is inclusive on the match side: a
candidate whose weighted similarity score is exactly 0.70 is reported
as a duplicate match (with confidence 0.700 after rounding), and a
candidate whose score is 0.699 is not. -/
theorem c3_threshold_boundary (R : Str → Str → ℚ) (t : MixRec) (title artist : Str)
    (fs : ℚ) (fh : Option Str) (d : Option ℚ) (al : Option Str) :
    (weighted_confidence R (normalize_string title) (normalize_string artist)
        (norm_album_of al) fs d t = 7/10 →
      check_for_duplicate_track R mix_model_has_file_hash [t] title artist fs fh d al =
        some ⟨t.id, MatchType.metadata, 7/10⟩) ∧
    (weighted_confidence R (normalize_string title) (normalize_string artist)
        (norm_album_of al) fs d t = 699/1000 →
      check_for_duplicate_track R mix_model_has_file_hash [t] title artist fs fh d al =
        none) := by
  constructor
  · intro hwc
    unfold check_for_duplicate_track
    rw [if_neg (by simp [mix_model_has_file_hash])]
    simp only [List.foldl_cons, List.foldl_nil, best_match_step]
    rw [hwc, if_pos (by constructor <;> norm_num)]
    simp [pyRound3_seven_tenths]
  · intro hwc
    unfold check_for_duplicate_track
    rw [if_neg (by simp [mix_model_has_file_hash])]
    simp only [List.foldl_cons, List.foldl_nil, best_match_step]
    rw [hwc, if_neg (by rw [seven_tenths_lit]; intro h; linarith [h.2])]

theorem ratioEq_bounded : scores_bounded ratioEq := by
  intro a b
  unfold ratioEq
  split <;> norm_num

theorem ratioNear_bounded : scores_bounded ratioNear := by
  intro a b
  unfold ratioNear
  split <;> norm_num

theorem wc_trackSong_eq :
    weighted_confidence ratioEq (normalize_string ("song".toList))
      (normalize_string ("artist".toList)) (norm_album_of none) 0 (some 0) trackSong
      = 7/10 := by
  have h1 : calculate_similarity ratioEq (normalize_string ("song".toList))
      (normalize_string trackSong.title) = 1 := by decide
  have h2 : calculate_similarity ratioEq (normalize_string ("artist".toList))
      (normalize_string trackSong.artist_name) = 1 := by decide
  have h3 : duration_similarity (some 0) trackSong.duration_seconds = 0 := by
    simp [duration_similarity]
  have h4 : album_similarity ratioEq (norm_album_of none) trackSong.album = 0 := by
    simp [album_similarity, norm_album_of, trackSong, pyTruthy]
  have h5 : size_similarity trackSong.file_size_mb ((0 : ℚ) / (1024 * 1024)) = 0 := by
    simp [size_similarity, trackSong]
  unfold weighted_confidence confidence_factors
  rw [h1, h2, h3, h4, h5]
  norm_num

theorem wc_trackT699_eq :
    weighted_confidence ratioNear (normalize_string ("t".toList))
      (normalize_string ("a".toList)) (norm_album_of none) 0 (some 0) trackT699
      = 699/1000 := by
  have h1 : calculate_similarity ratioNear (normalize_string ("t".toList))
      (normalize_string trackT699.title) = 1 := by decide
  have h2 : calculate_similarity ratioNear (normalize_string ("a".toList))
      (normalize_string trackT699.artist_name) = 299/300 := by
    simp only [calculate_similarity, ratioNear]
    rw [if_neg (by decide), if_neg (by decide)]
  have h3 : duration_similarity (some 0) trackT699.duration_seconds = 0 := by
    simp [duration_similarity]
  have h4 : album_similarity ratioNear (norm_album_of none) trackT699.album = 0 := by
    simp [album_similarity, norm_album_of, trackT699, pyTruthy]
  have h5 : size_similarity trackT699.file_size_mb ((0 : ℚ) / (1024 * 1024)) = 0 := by
    simp [size_similarity, trackT699]
  unfold weighted_confidence confidence_factors
  rw [h1, h2, h3, h4, h5]
  norm_num

/-- Witness for C3: a concrete catalog and similarity oracle realise a
weighted score of exactly 0.7 (matched, confidence 0.7) and of exactly
0.699 (not matched). -/
theorem c3_witness :
    check_for_duplicate_track ratioEq mix_model_has_file_hash [trackSong]
      ("song".toList) ("artist".toList) 0 (some ("h".toList)) (some 0) none =
      some ⟨trackSong.id, MatchType.metadata, 7/10⟩ ∧
    check_for_duplicate_track ratioNear mix_model_has_file_hash [trackT699]
      ("t".toList) ("a".toList) 0 (some ("h".toList)) (some 0) none = none :=
  ⟨(c3_threshold_boundary ratioEq trackSong ("song".toList) ("artist".toList) 0
      (some ("h".toList)) (some 0) none).1 wc_trackSong_eq,
   (c3_threshold_boundary ratioNear trackT699 ("t".toList) ("a".toList) 0
      (some ("h".toList)) (some 0) none).2 wc_trackT699_eq⟩

/-- Witness for C9: the theorem applied to the concrete match produced
by the C3 witness environment. -/
theorem c9_witness :
    (7/10 ≤ wMatch.confidence ∧ wMatch.confidence ≤ 1) ∧
    (wMatch.match_type = MatchType.exact_file → wMatch.confidence = 1) ∧
    (wMatch.match_type = MatchType.metadata → 7/10 ≤ wMatch.confidence) := by
  have heval : check_for_duplicate_track ratioEq mix_model_has_file_hash [trackSong]
      ("song".toList) ("artist".toList) 0 (some ("h".toList)) (some 0) none =
      some wMatch :=
    (c3_threshold_boundary ratioEq trackSong ("song".toList) ("artist".toList) 0
      (some ("h".toList)) (some 0) none).1 wc_trackSong_eq
  exact c9_match_confidence_range ratioEq_bounded mix_model_has_file_hash [trackSong]
    ("song".toList) ("artist".toList) 0 (some ("h".toList)) (some 0) none
    (by intro t ht; rcases List.mem_singleton.mp ht with rfl; norm_num [trackSong])
    (le_refl 0) wMatch heval

/-- C5 counterexample: the size-similarity decay is not continuous at
the 10% boundary — immediately beyond the window the score drops from
0.9 to 0, so no `δ` works for `ε = 1/2` at `pct = 1/10`. -/
theorem c5_counterexample :
    ¬ (∀ ε : ℚ, 0 < ε → ∃ δ : ℚ, 0 < δ ∧ ∀ p : ℚ,
        pyAbs (p - 1/10) < δ → pyAbs (size_decay p - size_decay (1/10)) < ε) := by
  intro h
  obtain ⟨δ, hδ, H⟩ := h (1/2) (by norm_num)
  set q : ℚ := 1/10 + min (δ/2) (1/100) with hq
  have hmin : 0 < min (δ/2) (1/100) := lt_min (by linarith) (by norm_num)
  have hq1 : 1/10 < q := by rw [hq]; linarith
  have habs : pyAbs (q - 1/10) < δ := by
    have : q - 1/10 = min (δ/2) (1/100) := by rw [hq]; ring
    rw [pyAbs, if_neg (by rw [this]; linarith)]
    rw [this]
    calc min (δ/2) (1/100) ≤ δ/2 := min_le_left _ _
      _ < δ := by linarith
  have h0 : size_decay q = 0 := by
    rw [size_decay, if_neg (not_le.mpr hq1)]
  have h9 : size_decay (1/10) = 9/10 := by
    rw [size_decay, if_pos (le_refl _)]
    norm_num
  have := H q habs
  rw [h0, h9] at this
  rw [pyAbs, if_pos (by norm_num)] at this
  norm_num at this

/-- C5 (amended): per-field scores lie in `[0,1]` and combine with the
fixed weights 0.40 / 0.30 / 0.15 / 0.10 / 0.05; the duration term
decays linearly over the duration delta, reaching exactly 0 at the
5-second window edge and 0 beyond; the size term decays linearly over
the relative size delta within the 10% window and is 0 beyond it, but
drops discontinuously from 0.9 to 0 at that boundary. -/
theorem c5_scores_weights_decays {R : Str → Str → ℚ} (hb : scores_bounded R)
    (nt na nal : Str) {fs : ℚ} (hfs : 0 ≤ fs) (d : Option ℚ) {t : MixRec}
    (ht : 0 ≤ t.file_size_mb) :
    (∀ pr ∈ confidence_factors R nt na nal fs d t, 0 ≤ pr.1 ∧ pr.1 ≤ 1) ∧
    (confidence_factors R nt na nal fs d t).map Prod.snd = [0.4, 0.3, 0.15, 0.1, 0.05] ∧
    (∀ x : ℚ, 0 ≤ x →
      (x ≤ 5 → duration_decay x = 1 - x/5) ∧ (5 < x → duration_decay x = 0)) ∧
    duration_decay 5 = 0 ∧
    (∀ p : ℚ, 0 ≤ p →
      (p ≤ 1/10 → size_decay p = 1 - p) ∧ (1/10 < p → size_decay p = 0)) ∧
    size_decay (1/10) = 9/10 := by
  refine ⟨?_, rfl, ?_, ?_, ?_, ?_⟩
  · intro pr hpr
    have h1 := calculate_similarity_bounds hb nt (normalize_string t.title)
    have h2 := calculate_similarity_bounds hb na (normalize_string t.artist_name)
    have h3 := duration_similarity_bounds d t.duration_seconds
    have h4 := album_similarity_bounds hb nal t.album
    have h5 := size_similarity_bounds ht (show (0:ℚ) ≤ fs / (1024 * 1024) by positivity)
    unfold confidence_factors at hpr
    simp only [List.mem_cons, List.mem_singleton] at hpr
    rcases hpr with rfl | rfl | rfl | rfl | rfl | h
    · exact h1
    · exact h2
    · exact h3
    · exact h4
    · exact h5
    · simp at h
  · intro x hx
    constructor
    · intro hle; rw [duration_decay, if_pos hle]
    · intro hlt; rw [duration_decay, if_neg (not_le.mpr hlt)]
  · rw [duration_decay, if_pos (le_refl _)]; norm_num
  · intro p hp
    constructor
    · intro hle; rw [size_decay, if_pos hle]
    · intro hlt; rw [size_decay, if_neg (not_le.mpr hlt)]
  · rw [size_decay, if_pos (le_refl _)]; norm_num

/-- Witness for the amended C5, at the concrete C3 witness
environment. -/
theorem c5_witness :
    (∀ pr ∈ confidence_factors ratioEq (normalize_string ("song".toList))
        (normalize_string ("artist".toList)) (norm_album_of none) 0 (some 0) trackSong,
      0 ≤ pr.1 ∧ pr.1 ≤ 1) ∧
    (confidence_factors ratioEq (normalize_string ("song".toList))
        (normalize_string ("artist".toList)) (norm_album_of none) 0 (some 0)
        trackSong).map Prod.snd = [0.4, 0.3, 0.15, 0.1, 0.05] ∧
    (∀ x : ℚ, 0 ≤ x →
      (x ≤ 5 → duration_decay x = 1 - x/5) ∧ (5 < x → duration_decay x = 0)) ∧
    duration_decay 5 = 0 ∧
    (∀ p : ℚ, 0 ≤ p →
      (p ≤ 1/10 → size_decay p = 1 - p) ∧ (1/10 < p → size_decay p = 0)) ∧
    size_decay (1/10) = 9/10 :=
  c5_scores_weights_decays ratioEq_bounded (normalize_string ("song".toList))
    (normalize_string ("artist".toList)) (norm_album_of none) (le_refl 0) (some 0)
    (by norm_num [trackSong])

/-! ### Validator (C4) -/

/-- C4 evaluation at the failing input: a zero-byte stream named
`empty.mp3`.  In lightweight mode the validator returns `Valid` (the
size check only enforces the 100 MB maximum and there is no emptiness
check); in full mode it returns `Invalid` only because the audio
decoder fails on zero bytes. -/
theorem c4_empty_input_eval :
    validate_audio_file (fun _ => false) (fun _ => false) [] ("empty.mp3".toList) true =
      ValidationResult.valid ("audio/mpeg".toList) (".mp3".toList) 0 ∧
    validate_audio_file (fun _ => false) (fun _ => false) [] ("empty.mp3".toList) false =
      ValidationResult.invalid ErrCode.invalid_audio_file := by
  constructor <;> decide

/-! ### Local filename generation (C7) -/

theorem guf_loop_spec (db disk : Str → Bool) (dir base ext : Str) :
    ∀ (fuel : Nat) (nf : Str) (counter : Nat), counter + fuel = 1001 → 1 ≤ counter →
      counter ≤ 1000 →
      (disk (pathJoin dir (get_unique_filepath_loop db disk dir base ext fuel nf counter)) = false ∧
       db (pathJoin dir (get_unique_filepath_loop db disk dir base ext fuel nf counter)) = false ∧
       db (public_dir_of dir ++ '/' ::
         get_unique_filepath_loop db disk dir base ext fuel nf counter) = false) ∨
      get_unique_filepath_loop db disk dir base ext fuel nf counter =
        base ++ '_' :: ((Nat.repr 1000).data ++ ext) := by
  intro fuel
  induction fuel with
  | zero => intro nf counter hsum _ hle; omega
  | succ n ih =>
    intro nf counter hsum h1 hle
    simp only [get_unique_filepath_loop]
    by_cases hfree :
        (!disk (pathJoin dir nf) &&
          !(db (pathJoin dir nf) || db (public_dir_of dir ++ '/' :: nf))) = true
    · rw [if_pos hfree]
      rcases (Bool.and_eq_true _ _).mp hfree with ⟨ha, hb⟩
      rw [Bool.not_eq_true'] at ha hb
      rcases Bool.or_eq_false_iff.mp hb with ⟨hb1, hb2⟩
      exact Or.inl ⟨ha, hb1, hb2⟩
    · rw [if_neg hfree]
      by_cases hcap : counter + 1 > 1000
      · rw [if_pos hcap]
        have : counter = 1000 := by omega
        subst this
        exact Or.inr rfl
      · rw [if_neg hcap]
        exact ih (base ++ '_' :: ((Nat.repr counter).data ++ ext)) (counter + 1)
          (by omega) (by omega) (by omega)

/-- C7 counterexample: when every candidate name is taken on disk, the
loop exhausts its 1000-counter cap and returns the last generated
name without checking it — and that name collides (it exists on
disk), contradicting the claim that the returned filename is always
collision-free. -/
theorem c7_counterexample :
    get_unique_filepath (fun _ => false) (fun _ => true) ("uploads".toList)
        ("f.mp3".toList) = ("f_1000.mp3".toList) ∧
    (fun _ => true) (pathJoin ("uploads".toList)
      (get_unique_filepath (fun _ => false) (fun _ => true) ("uploads".toList)
        ("f.mp3".toList))) = true := by
  have hsp : pySplitext ("f.mp3".toList) = ("f".toList, ".mp3".toList) := by decide
  have h := guf_loop_spec (fun _ => false) (fun _ => true) ("uploads".toList)
    ("f".toList) (".mp3".toList) 1000 ("f.mp3".toList) 1 (by norm_num) (by norm_num)
    (by norm_num)
  rcases h with ⟨hd, _⟩ | hr
  · exact absurd hd (by simp)
  · constructor
    · rw [show get_unique_filepath (fun _ => false) (fun _ => true) ("uploads".toList)
          ("f.mp3".toList) =
          get_unique_filepath_loop (fun _ => false) (fun _ => true) ("uploads".toList)
            ("f".toList) (".mp3".toList) 1000 ("f.mp3".toList) 1 from by
          simp only [get_unique_filepath, hsp]]
      rw [hr]
      decide
    · rfl

/-- C7 (amended): the filename returned by `get_unique_filepath` is
collision-free — absent from the directory on disk and unreferenced by
any catalog record under both the local-path and the public-URL
spelling — whenever the bounded loop finds a free candidate within its
1000-counter cap; if the cap is exhausted the function gives up and
returns the final `<base>_1000<ext>` candidate unchecked, which may
collide. -/
theorem c7_collision_free_or_capped (db disk : Str → Bool) (dir filename : Str) :
    (disk (pathJoin dir (get_unique_filepath db disk dir filename)) = false ∧
     db (pathJoin dir (get_unique_filepath db disk dir filename)) = false ∧
     db (public_dir_of dir ++ '/' :: get_unique_filepath db disk dir filename) = false) ∨
    get_unique_filepath db disk dir filename =
      (pySplitext filename).1 ++ '_' :: ((Nat.repr 1000).data ++ (pySplitext filename).2) := by
  simp only [get_unique_filepath]
  exact guf_loop_spec db disk dir (pySplitext filename).1 (pySplitext filename).2 1000
    filename 1 (by norm_num) (by norm_num) (by norm_num)

/-- Witness for the amended C7 at a concrete empty environment (the
first candidate is free, so the collision-free disjunct holds). -/
theorem c7_witness :
    (((fun _ => false) : Str → Bool)
        (pathJoin ("uploads".toList)
          (get_unique_filepath (fun _ => false) (fun _ => false) ("uploads".toList)
            ("a.mp3".toList))) = false ∧
     ((fun _ => false) : Str → Bool)
        (pathJoin ("uploads".toList)
          (get_unique_filepath (fun _ => false) (fun _ => false) ("uploads".toList)
            ("a.mp3".toList))) = false ∧
     ((fun _ => false) : Str → Bool)
        (public_dir_of ("uploads".toList) ++ '/' ::
          get_unique_filepath (fun _ => false) (fun _ => false) ("uploads".toList)
            ("a.mp3".toList)) = false) ∨
    get_unique_filepath (fun _ => false) (fun _ => false) ("uploads".toList)
        ("a.mp3".toList) =
      (pySplitext ("a.mp3".toList)).1 ++ '_' ::
        ((Nat.repr 1000).data ++ (pySplitext ("a.mp3".toList)).2) :=
  c7_collision_free_or_capped (fun _ => false) (fun _ => false) ("uploads".toList)
    ("a.mp3".toList)

/-! ### Reconciliation path resolution (C8) -/

/-- C8: reconciliation path resolution — a record stored as
`/uploads/x/y.mp3` under local root `uploads` resolves to
`uploads/x/y.mp3` (public prefix stripped and rejoined); a bare
filename resolves via the basename candidate under the local root; and
a record whose stored location is an `http(s)` URL is never flagged
orphaned. -/
theorem c8_path_resolution :
    (∀ fs : Str → Bool, fs ("/uploads/x/y.mp3".toList) = false →
      fs ("uploads/x/y.mp3".toList) = true →
      resolve_local_path fs ("/uploads/x/y.mp3".toList) ("uploads".toList) =
        some ("uploads/x/y.mp3".toList)) ∧
    (∀ fs : Str → Bool, fs ("y.mp3".toList) = false →
      fs ("uploads/y.mp3".toList) = true →
      resolve_local_path fs ("y.mp3".toList) ("uploads".toList) =
        some ("uploads/y.mp3".toList)) ∧
    (∀ (fs : Str → Bool) (db : List MixRec) (upload_dir : Str) (rec : MixRec),
      rec ∈ db → is_remote_url (stripEnds isPySpace rec.file_path) = true →
      rec ∉ find_orphaned_tracks fs db upload_dir) := by
  refine ⟨?_, ?_, ?_⟩
  · intro fs h1 h2
    have hc : resolve_candidates ("/uploads/x/y.mp3".toList) ("uploads".toList) =
        ["/uploads/x/y.mp3".toList, "uploads/x/y.mp3".toList, "uploads/y.mp3".toList] := by
      decide
    simp only [resolve_local_path]
    rw [if_neg (by decide), hc]
    simp only [List.find?]
    rw [show (!List.isEmpty ("/uploads/x/y.mp3".toList) && fs ("/uploads/x/y.mp3".toList))
        = fs ("/uploads/x/y.mp3".toList) from by rw [show List.isEmpty ("/uploads/x/y.mp3".toList) = false from by decide]; simp]
    rw [h1]
    rw [show (!List.isEmpty ("uploads/x/y.mp3".toList) && fs ("uploads/x/y.mp3".toList))
        = fs ("uploads/x/y.mp3".toList) from by rw [show List.isEmpty ("uploads/x/y.mp3".toList) = false from by decide]; simp]
    rw [h2]
  · intro fs h1 h2
    have hc : resolve_candidates ("y.mp3".toList) ("uploads".toList) =
        ["y.mp3".toList, "uploads/y.mp3".toList] := by
      decide
    simp only [resolve_local_path]
    rw [if_neg (by decide), hc]
    simp only [List.find?]
    rw [show (!List.isEmpty ("y.mp3".toList) && fs ("y.mp3".toList))
        = fs ("y.mp3".toList) from by rw [show List.isEmpty ("y.mp3".toList) = false from by decide]; simp]
    rw [h1]
    rw [show (!List.isEmpty ("uploads/y.mp3".toList) && fs ("uploads/y.mp3".toList))
        = fs ("uploads/y.mp3".toList) from by rw [show List.isEmpty ("uploads/y.mp3".toList) = false from by decide]; simp]
    rw [h2]
  · intro fs db upload_dir rec _hmem hurl hcontra
    have hp := (List.mem_filter.mp hcontra).2
    simp only [hurl, Bool.or_true, if_true] at hp
    exact Bool.false_ne_true hp

/-- Witness for C8 at a concrete filesystem and catalog. -/
theorem c8_witness :
    resolve_local_path wFs ("/uploads/x/y.mp3".toList) ("uploads".toList) =
      some ("uploads/x/y.mp3".toList) ∧
    resolve_local_path wFs ("y.mp3".toList) ("uploads".toList) =
      some ("uploads/y.mp3".toList) ∧
    wRemoteRec ∉ find_orphaned_tracks wFs [wRemoteRec] ("uploads".toList) :=
  ⟨c8_path_resolution.1 wFs (by decide) (by decide),
   c8_path_resolution.2.1 wFs (by decide) (by decide),
   c8_path_resolution.2.2 wFs [wRemoteRec] ("uploads".toList) wRemoteRec
     (List.mem_singleton.mpr rfl) (by decide)⟩

/-! ### Storage fallback flag (C6) -/

theorem finish_upload_created_inv {env : UploadEnv} {sub : Submission} {a : Str}
    {fsb : Nat} {fh : Str} {d : ℤ} {url : Str} {prov : StorageProvider} {fb : Bool}
    {st : StorageState} {rec : MixRec} {p : StorageProvider} {fb' : Bool}
    {st' : StorageState}
    (h : finish_upload env sub a fsb fh d url prov fb st =
      UploadResult.created rec p fb' st') :
    p = prov ∧ fb' = fb ∧ st' = st := by
  unfold finish_upload at h
  split at h
  · exact absurd h (by simp)
  · split at h
    · exact absurd h (by simp)
    · split at h
      · rw [UploadResult.created.injEq] at h
        exact ⟨h.2.1.symm, h.2.2.1.symm, h.2.2.2.symm⟩
      · exact absurd h (by simp)
      · exact absurd h (by simp)

theorem generate_public_url_ne_nil (e : B2Env) (k : Str) :
    generate_public_url e k ≠ [] := by
  unfold generate_public_url
  split
  · split
    · rename_i hep
      simp only [ne_eq, List.append_eq_nil]
      intro hc
      exact hep hc.1
    · simp
  · split
    · rename_i hep
      simp only [ne_eq, List.append_eq_nil]
      intro hc
      exact hep hc.1
    · simp

theorem put_ok_url_ne_nil {e : B2Env} {k u k' : Str}
    (h : put_bytes_safe e k = PutResult.ok u k') : u ≠ [] := by
  unfold put_bytes_safe at h
  cases hmode : e.mode with
  | disabled => rw [hmode] at h; exact absurd h (by simp)
  | native =>
    rw [hmode] at h
    cases hpf : e.put_failure with
    | some c => rw [hpf] at h; exact absurd h (by simp)
    | none =>
      rw [hpf] at h
      simp only [PutResult.ok.injEq] at h
      rw [← h.1]
      exact generate_public_url_ne_nil e k
  | s3 =>
    rw [hmode] at h
    cases hpf : e.put_failure with
    | some c => rw [hpf] at h; exact absurd h (by simp)
    | none =>
      rw [hpf] at h
      simp only [PutResult.ok.injEq] at h
      rw [← h.1]
      intro hcon
      rcases List.append_eq_nil.mp hcon with ⟨_, h2⟩
      exact absurd h2 (by simp)

theorem b2_first_attempt_some_ne_nil {env : UploadEnv} {key u : Str}
    (h : (b2_first_attempt env key).1 = some u) : u ≠ [] := by
  unfold b2_first_attempt at h
  split at h
  · split at h
    · exact absurd h (by simp)
    · split at h
      · rename_i hok
        simp only [Option.some_inj] at h
        subst h
        exact put_ok_url_ne_nil hok
      · exact absurd h (by simp)
  · exact absurd h (by simp)

theorem b2_first_attempt_none_failed {env : UploadEnv} {sub : Submission} {ext : Str}
    (hcfg : is_configured env.b2 = true)
    (h : (b2_first_attempt env (upload_audio_key env sub ext)).1 = none) :
    b2_attempt_failed env sub ext = true := by
  unfold b2_first_attempt at h
  rw [if_pos hcfg] at h
  unfold b2_attempt_failed
  by_cases ht : env.put_timeout = true
  · rw [ht]; rfl
  · rw [Bool.not_eq_true] at ht
    rw [ht, if_neg (by simp)] at h
    rw [ht]
    cases hput : put_bytes_safe env.b2 (upload_audio_key env sub ext) with
    | ok u k => rw [hput] at h; exact absurd h (by simp)
    | err c => simp

/-- C6: for every upload that ends stored on the local tier, the
`fallback_from_b2` flag is true exactly when the remote tier was
configured and its single put attempt failed (timeout or structured
error); a deployment with no remote tier configured performs the local
write with the flag false. -/
theorem c6_local_fallback_flag (env : UploadEnv) (sub : Submission) :
    ∀ (rec : MixRec) (p : StorageProvider) (fb : Bool) (st : StorageState),
      upload_mix env sub = UploadResult.created rec p fb st →
      p = StorageProvider.local_filesystem →
      st.localHolds = true ∧
      (fb = true ↔ (is_configured env.b2 = true ∧
        b2_attempt_failed env sub (upload_ext env sub) = true)) ∧
      (is_configured env.b2 = false → fb = false) := by
  intro rec p fb st h hp
  unfold upload_mix at h
  split at h
  · exact absurd h (by simp)
  · rename_i mime ext fsb hv
    have hext : upload_ext env sub = ext := by rw [upload_ext, hv]
    split at h
    · rename_i url hatt
      split at h
      · rename_i hemp
        exact absurd (by simpa using hemp) (b2_first_attempt_some_ne_nil hatt)
      · obtain ⟨hpv, _, _⟩ := finish_upload_created_inv h
        rw [hp] at hpv
        exact absurd hpv (by simp)
    · rename_i hatt
      split at h
      · exact absurd h (by simp)
      · obtain ⟨_, hfb, hst⟩ := finish_upload_created_inv h
        subst hfb hst
        refine ⟨rfl, ?_, ?_⟩
        · constructor
          · intro hcfg
            exact ⟨hcfg, hext ▸ b2_first_attempt_none_failed hcfg hatt⟩
          · intro hand
            exact hand.1
        · intro hcfg
          exact hcfg

/-! ### Concrete pipeline evaluations (shared helpers) -/

theorem check_empty_db (R : Str → Str → ℚ) (t a : Str) (fs : ℚ) (fh : Option Str)
    (d : Option ℚ) (al : Option Str) :
    check_for_duplicate_track R mix_model_has_file_hash [] t a fs fh d al = none := by
  unfold check_for_duplicate_track
  rw [if_neg (by simp [mix_model_has_file_hash])]
  rfl

theorem check_singleton_at_710 (R : Str → Str → ℚ) (t : MixRec) (title artist : Str)
    (fs : ℚ) (fh : Option Str) (d : Option ℚ) (al : Option Str)
    (hwc : weighted_confidence R (normalize_string title) (normalize_string artist)
      (norm_album_of al) fs d t = 7/10) :
    check_for_duplicate_track R mix_model_has_file_hash [t] title artist fs fh d al =
      some ⟨t.id, MatchType.metadata, 7/10⟩ := by
  unfold check_for_duplicate_track
  rw [if_neg (by simp [mix_model_has_file_hash])]
  simp only [List.foldl_cons, List.foldl_nil, best_match_step]
  rw [hwc, if_pos (by constructor <;> norm_num)]
  simp [pyRound3_seven_tenths]

theorem check_singleton_below (R : Str → Str → ℚ) (t : MixRec) (title artist : Str)
    (fs : ℚ) (fh : Option Str) (d : Option ℚ) (al : Option Str)
    (hwc : weighted_confidence R (normalize_string title) (normalize_string artist)
      (norm_album_of al) fs d t < 7/10) :
    check_for_duplicate_track R mix_model_has_file_hash [t] title artist fs fh d al =
      none := by
  unfold check_for_duplicate_track
  rw [if_neg (by simp [mix_model_has_file_hash])]
  simp only [List.foldl_cons, List.foldl_nil, best_match_step]
  rw [if_neg (by rw [seven_tenths_lit]; intro h; linarith [h.2])]

theorem cast3_div : ((3 : Nat) : ℚ) / (1024 * 1024) = (3 : ℚ) / (1024 * 1024) := by
  norm_num

theorem eval_upload_cEnvBase :
    upload_mix cEnvBase cSubA =
      UploadResult.created cRecA StorageProvider.local_filesystem false ⟨false, true⟩ := by
  have hval : validate_audio_file cEnvBase.decode_mem cEnvBase.decode_temp cSubA.content
      cSubA.filename false =
      ValidationResult.valid ("audio/mpeg".toList) (".mp3".toList) 3 := by decide
  have hatt : b2_first_attempt cEnvBase (upload_audio_key cEnvBase cSubA (".mp3".toList)) =
      (none, false) := by decide
  have hart : upload_artist cEnvBase cSubA = "Beta".toList := by decide
  have hurlloc : local_fallback_url cEnvBase cSubA = "/uploads/a.mp3".toList := by decide
  have hdb : cEnvBase.db = [] := rfl
  simp only [upload_mix, hval, hatt]
  rw [if_neg (by decide)]
  simp only [finish_upload, hdb, check_empty_db, List.find?_nil, Option.isSome_none,
    Bool.false_and, hart, hurlloc]
  rw [if_neg (by simp)]
  have hins : cEnvBase.insert_result = InsertResult.ok := rfl
  rw [hins]
  have hdur : cEnvBase.extract_duration cSubA.content = 0 := rfl
  rw [hdur, cast3_div]
  rfl

theorem eval_upload_cEnvC2 :
    upload_mix cEnvC2 cSubB =
      UploadResult.created cRecB StorageProvider.local_filesystem false ⟨false, true⟩ := by
  have hval : validate_audio_file cEnvC2.decode_mem cEnvC2.decode_temp cSubB.content
      cSubB.filename false =
      ValidationResult.valid ("audio/mpeg".toList) (".mp3".toList) 3 := by decide
  have hatt : b2_first_attempt cEnvC2 (upload_audio_key cEnvC2 cSubB (".mp3".toList)) =
      (none, false) := by decide
  have hart : upload_artist cEnvC2 cSubB = "Delta".toList := by decide
  have hurlloc : local_fallback_url cEnvC2 cSubB = "/uploads/b.mp3".toList := by decide
  have hdur : cEnvC2.extract_duration cSubB.content = 0 := rfl
  have hsizeA : cRecA.file_size_mb = (3 : ℚ) / (1024 * 1024) := rfl
  have hwc : weighted_confidence cEnvC2.ratio (normalize_string cSubB.title)
      (normalize_string ("Delta".toList)) (norm_album_of cSubB.album)
      ((3 : Nat) : ℚ) (some (0 : ℚ)) cRecA = 1/20 := by
    have h1 : calculate_similarity cEnvC2.ratio (normalize_string cSubB.title)
        (normalize_string cRecA.title) = 0 := by decide
    have h2 : calculate_similarity cEnvC2.ratio (normalize_string ("Delta".toList))
        (normalize_string cRecA.artist_name) = 0 := by decide
    have h3 : duration_similarity (some (0 : ℚ)) cRecA.duration_seconds = 0 := by
      simp [duration_similarity]
    have h4 : album_similarity cEnvC2.ratio (norm_album_of cSubB.album) cRecA.album = 0 := by
      simp [album_similarity, norm_album_of, cRecA, mk_mix_rec, cSubA, cSubB, pyTruthy]
    have h5 : size_similarity cRecA.file_size_mb (((3 : Nat) : ℚ) / (1024 * 1024)) = 1 := by
      rw [hsizeA, cast3_div]
      rw [size_similarity, if_pos (by norm_num)]
      have hz : pyAbs ((3 : ℚ) / (1024 * 1024) - (3 : ℚ) / (1024 * 1024)) = 0 := by
        rw [sub_self, pyAbs, if_neg (by norm_num)]
      have hm : pyMax ((3 : ℚ) / (1024 * 1024)) ((3 : ℚ) / (1024 * 1024)) =
          (3 : ℚ) / (1024 * 1024) := by
        rw [pyMax, if_neg (by norm_num)]
      rw [hz, hm, zero_div, size_decay, if_pos (by norm_num)]
      norm_num
    unfold weighted_confidence confidence_factors
    rw [h1, h2, h3, h4, h5]
    norm_num
  have hchk : check_for_duplicate_track cEnvC2.ratio mix_model_has_file_hash cEnvC2.db
      cSubB.title ("Delta".toList) ((3 : Nat) : ℚ)
      (some (calculate_file_hash cEnvC2.sha256 cSubB.content)) (some (0 : ℚ)) cSubB.album = none :=
    check_singleton_below cEnvC2.ratio cRecA cSubB.title ("Delta".toList) _ _ _ _
      (by rw [hwc]; norm_num)
  have hfind : cEnvC2.db.find? (fun t => t.file_path == ("/uploads/b.mp3".toList)) =
      none := by decide
  simp only [upload_mix, hval, hatt]
  rw [if_neg (by decide)]
  simp only [finish_upload, hart, hurlloc, hdur, Int.cast_zero, hchk, hfind,
    Option.isSome_none, Bool.false_and]
  rw [if_neg (by simp)]
  have hins : cEnvC2.insert_result = InsertResult.ok := rfl
  rw [hins, cast3_div]
  rfl

theorem eval_upload_cEnvC1 :
    upload_mix cEnvC1 cSubSkip =
      UploadResult.duplicate_conflict ⟨3, MatchType.metadata, 7/10⟩ ⟨false, true⟩ := by
  have hval : validate_audio_file cEnvC1.decode_mem cEnvC1.decode_temp cSubSkip.content
      cSubSkip.filename false =
      ValidationResult.valid ("audio/mpeg".toList) (".mp3".toList) 3 := by decide
  have hatt : b2_first_attempt cEnvC1 (upload_audio_key cEnvC1 cSubSkip (".mp3".toList)) =
      (none, false) := by decide
  have hart : upload_artist cEnvC1 cSubSkip = "Beta".toList := by decide
  have hurlloc : local_fallback_url cEnvC1 cSubSkip = "/uploads/a.mp3".toList := by decide
  have hdur : cEnvC1.extract_duration cSubSkip.content = 0 := rfl
  have hwc : weighted_confidence cEnvC1.ratio (normalize_string cSubSkip.title)
      (normalize_string ("Beta".toList)) (norm_album_of cSubSkip.album)
      ((3 : Nat) : ℚ) (some (0 : ℚ)) trackAlpha = 7/10 := by
    have h1 : calculate_similarity cEnvC1.ratio (normalize_string cSubSkip.title)
        (normalize_string trackAlpha.title) = 1 := by decide
    have h2 : calculate_similarity cEnvC1.ratio (normalize_string ("Beta".toList))
        (normalize_string trackAlpha.artist_name) = 1 := by decide
    have h3 : duration_similarity (some (0 : ℚ)) trackAlpha.duration_seconds = 0 := by
      simp [duration_similarity]
    have h4 : album_similarity cEnvC1.ratio (norm_album_of cSubSkip.album)
        trackAlpha.album = 0 := by
      simp [album_similarity, norm_album_of, trackAlpha, cSubSkip, pyTruthy]
    have h5 : size_similarity trackAlpha.file_size_mb (((3 : Nat) : ℚ) / (1024 * 1024)) =
        0 := by
      simp [size_similarity, trackAlpha]
    unfold weighted_confidence confidence_factors
    rw [h1, h2, h3, h4, h5]
    norm_num
  have hchk : check_for_duplicate_track cEnvC1.ratio mix_model_has_file_hash cEnvC1.db
      cSubSkip.title ("Beta".toList) ((3 : Nat) : ℚ)
      (some (calculate_file_hash cEnvC1.sha256 cSubSkip.content)) (some (0 : ℚ)) cSubSkip.album =
      some ⟨3, MatchType.metadata, 7/10⟩ :=
    check_singleton_at_710 cEnvC1.ratio trackAlpha cSubSkip.title ("Beta".toList) _ _ _ _ hwc
  have hcomp : compensate_b2 cEnvC1 ("/uploads/a.mp3".toList)
      (⟨false, true⟩ : StorageState) = ⟨false, true⟩ := by
    rw [compensate_b2, if_neg (by decide)]
  simp only [upload_mix, hval, hatt]
  rw [if_neg (by decide)]
  simp only [finish_upload, hart, hurlloc, hdur, Int.cast_zero, hchk, hcomp]

/-- C1 evaluation at the failing input: `skip_duplicate_check` is set,
B2 is not configured, and the catalog already holds a matching track.
The duplicate detector still runs and `upload_mix` raises the 409
`DuplicateConflict` — and at that moment the local tier holds the
newly written audio bytes (`localHolds = true`), because the storage
write precedes the duplicate check and the compensating cleanup only
ever deletes B2 objects. -/
theorem c1_skip_flag_and_local_write_at_conflict :
    upload_mix cEnvC1 cSubSkip =
      UploadResult.duplicate_conflict ⟨3, MatchType.metadata, 7/10⟩ ⟨false, true⟩ ∧
    cSubSkip.skip_duplicate_check = true ∧
    trackAlpha ∈ cEnvC1.db :=
  ⟨eval_upload_cEnvC1, rfl, List.mem_singleton.mpr rfl⟩

/-- C2 evaluation at the failing input: two submissions with identical
raw bytes (identical content hash) and different declared names.  The
first commits a catalog row with no stored hash
(`cRecA.file_hash = none`, since `models.Mix` declares no `file_hash`
column and `create_mix` persists none), so the second is *not*
reported as an `ExactContent` duplicate — it commits as well. -/
theorem c2_identical_bytes_not_flagged :
    calculate_file_hash cEnvBase.sha256 cSubB.content = calculate_file_hash cEnvBase.sha256 cSubA.content ∧
    mix_model_has_file_hash = false ∧
    upload_mix cEnvBase cSubA =
      UploadResult.created cRecA StorageProvider.local_filesystem false ⟨false, true⟩ ∧
    cRecA.file_hash = none ∧
    upload_mix cEnvC2 cSubB =
      UploadResult.created cRecB StorageProvider.local_filesystem false ⟨false, true⟩ :=
  ⟨rfl, rfl, eval_upload_cEnvBase, rfl, eval_upload_cEnvC2⟩

/-- Witness for C6: a concrete local-only (B2-disabled) upload commits
on the local tier with `fallback_from_b2 = false`. -/
theorem c6_witness :
    (⟨false, true⟩ : StorageState).localHolds = true ∧
    (false = true ↔ (is_configured cEnvBase.b2 = true ∧
      b2_attempt_failed cEnvBase cSubA (upload_ext cEnvBase cSubA) = true)) ∧
    (is_configured cEnvBase.b2 = false → false = false) :=
  c6_local_fallback_flag cEnvBase cSubA cRecA StorageProvider.local_filesystem false
    ⟨false, true⟩ eval_upload_cEnvBase rfl

end PapzinCrew
